import Mathlib

/-
Verification of the goby-acomms core against its natural-language
specification.  The definitions below are shallow embeddings of the C++
sources:

  * `src/acomms/libdccl/dccl_field_codec_default.h`
      (`DCCLDefaultArithmeticFieldCodec`)
  * `src/acomms/libqueue/queue_manager.cpp`
      (`add_queue`, `find_next_sender`, `provide_outgoing_modem_data`,
       `handle_modem_ack`, `stitch_recursive`, `unstitch_recursive`,
       `publish_incoming_piece`)
  * `src/acomms/modemdriver/iridium_shore_driver.cpp`
      (`do_work`, `process_transmission`, `send`, `rudics_line`)
  * `src/acomms/modemdriver/iridium_driver_common.h` (`OnCallBase`)

C++ `double` values (field values, priorities, times) are modelled as `ℚ`,
machine integers as `Nat`/`Int` with explicit wrapping where it matters,
and fallible operations as `Option`/`Except`.  Components whose
implementation is not part of the sources (the DCCL header codec, the
`Queue` member functions, `goby::util::unbiased_round`, the rudics packet
serialization and the constants of `queue_constants.h`) are modelled from
the specification and marked as such in their doc comments.
-/

namespace Goby

/-! ## Bitset and the default arithmetic field codec
    (src/acomms/libdccl/dccl_field_codec_default.h, lines 46-109) -/

/-- Model of the C++ `Bitset` as used by the arithmetic codec: a field of
`width` bits holding the unsigned value `val`. -/
structure Bitset where
  width : Nat
  val : Nat
  deriving DecidableEq, Repr

/-- `Bitset(size, value)`: the C++ constructor keeps only the low `size`
bits of `value`. -/
def Bitset.ofULong (w : Nat) (v : Nat) : Bitset :=
  ⟨w, v % 2 ^ w⟩

/-- `bits->to_ulong()`. -/
def Bitset.to_ulong (b : Bitset) : Nat := b.val

/-- Modelled from the spec: `goby::util::unbiased_round` (util/sci.h is not
in src/).  The spec calls it "round((x − min) · 10^p)" and "round to p
decimals": round the value to `prec` decimal digits, halves upward
(Mathlib `round q = ⌊q + 1/2⌋`). -/
def unbiased_round (r : ℚ) (prec : ℤ) : ℚ :=
  (round (r * 10 ^ prec) : ℤ) / 10 ^ prec

/-- `DCCLDefaultArithmeticFieldCodec::size()`:
`ceil(log2((max-min)*10^precision + 1 + NULL_VALUE))` with `NULL_VALUE = 1`.
The real-valued logarithm is rendered with `Nat.clog`, which agrees with
`ceil ∘ log2` on the integer arguments the codec produces. -/
def arithSize (mn mx : ℚ) (prec : ℤ) : Nat :=
  Nat.clog 2 ((⌈(mx - mn) * 10 ^ prec⌉).toNat + 2)

/-- `DCCLDefaultArithmeticFieldCodec::encode(value)`: out-of-range values
yield `Bitset(size())` (all zero); otherwise the value is rounded to the
declared precision, shifted by `min`, scaled by `10^precision`, converted
to `unsigned long` (the value is integral and nonnegative here, modelled
by `Int.toNat ∘ Int.floor`) and incremented by one. -/
def arithEncode (mn mx : ℚ) (prec : ℤ) (x : ℚ) : Bitset :=
  if x < mn ∨ x > mx then
    Bitset.ofULong (arithSize mn mx prec) 0
  else
    let wv := unbiased_round x prec
    let wv := (wv - mn) * 10 ^ prec
    Bitset.ofULong (arithSize mn mx prec) ((⌊wv⌋).toNat + 1)

/-- `DCCLDefaultArithmeticFieldCodec::decode(bits)`: wire value `0` throws
`DCCLNullValueException` (absent, modelled as `none`); otherwise the
formula is inverted and re-rounded to the declared precision. -/
def arithDecode (mn : ℚ) (prec : ℤ) (bits : Bitset) : Option ℚ :=
  let t := bits.to_ulong
  if t = 0 then none
  else some (unbiased_round (((t : ℚ) - 1) / 10 ^ prec + mn) prec)

lemma pow10_pos (prec : ℤ) : (0 : ℚ) < 10 ^ prec :=
  zpow_pos (by norm_num) prec

lemma unbiased_round_of_round (x : ℚ) (prec : ℤ) :
    unbiased_round x prec * 10 ^ prec = (round (x * 10 ^ prec) : ℚ) := by
  have h := (pow10_pos prec).ne.symm
  field_simp [unbiased_round]

/-- The integer the in-range branch of `encode` computes is exactly
`round((x - min) * 10^p)`. -/
lemma arith_wire_integer (mn x : ℚ) (prec : ℤ) (m : ℤ)
    (hmn : mn * 10 ^ prec = (m : ℚ)) :
    ⌊(unbiased_round x prec - mn) * 10 ^ prec⌋ = round ((x - mn) * 10 ^ prec) := by
  have hne := (pow10_pos prec).ne.symm
  have h1 : (unbiased_round x prec - mn) * 10 ^ prec
      = ((round (x * 10 ^ prec) - m : ℤ) : ℚ) := by
    rw [sub_mul, unbiased_round_of_round, hmn]
    push_cast
    ring
  have h2 : ((x - mn) * 10 ^ prec) = x * 10 ^ prec - (m : ℚ) := by
    rw [sub_mul, hmn]
  rw [h1, Int.floor_intCast, h2, round_sub_int]

lemma round_le_round {a b : ℚ} (h : a ≤ b) : round a ≤ round b := by
  rw [round_eq, round_eq]
  exact Int.floor_le_floor (by linarith)

/-- C1: for a field with declared `min`, `max` and precision `p`
(representable at that precision), the default arithmetic codec encodes an
in-range value `x` as the wire integer `round((x - min) * 10^p) + 1` in a
field of exactly `ceil(log2((max - min) * 10^p + 2))` bits (the `arithSize`
formula, with no wrapping), wire integer `0` decodes to absent, a non-zero
wire integer `t` decodes to `(t - 1) / 10^p + min` rounded to `p` decimals,
and `decode (encode x)` is `x` rounded to `p` decimals. -/
theorem dccl_arith_codec_roundtrip (mn mx x : ℚ) (prec : ℤ)
    (hmn : ∃ m : ℤ, mn * 10 ^ prec = (m : ℚ))
    (hmx : ∃ M : ℤ, mx * 10 ^ prec = (M : ℚ))
    (h1 : mn ≤ x) (h2 : x ≤ mx) :
    arithEncode mn mx prec x =
      ⟨arithSize mn mx prec, (round ((x - mn) * 10 ^ prec)).toNat + 1⟩
    ∧ (∀ w, arithDecode mn prec ⟨w, 0⟩ = none)
    ∧ (∀ w t, t ≠ 0 →
        arithDecode mn prec ⟨w, t⟩ =
          some (unbiased_round (((t : ℚ) - 1) / 10 ^ prec + mn) prec))
    ∧ arithDecode mn prec (arithEncode mn mx prec x) = some (unbiased_round x prec) :=
  by
  obtain ⟨m, hm⟩ := hmn
  obtain ⟨M, hM⟩ := hmx
  have hpow := pow10_pos prec
  have hD : (mx - mn) * 10 ^ prec = ((M - m : ℤ) : ℚ) := by
    rw [sub_mul, hm, hM]; push_cast; ring
  -- the wire integer R and its bounds
  set R : ℤ := round ((x - mn) * 10 ^ prec) with hR
  have hR0 : 0 ≤ R := by
    have : (0 : ℚ) ≤ (x - mn) * 10 ^ prec := by
      have : (0 : ℚ) ≤ x - mn := by linarith
      positivity
    calc (0 : ℤ) = round (0 : ℚ) := by simp
    _ ≤ R := round_le_round this
  have hRD : R ≤ M - m := by
    have hle : (x - mn) * 10 ^ prec ≤ (mx - mn) * 10 ^ prec := by
      have : x - mn ≤ mx - mn := by linarith
      exact mul_le_mul_of_nonneg_right this hpow.le
    calc R ≤ round ((mx - mn) * 10 ^ prec) := round_le_round hle
    _ = M - m := by rw [hD, round_intCast]
  have hDnonneg : (0 : ℤ) ≤ M - m := le_trans hR0 hRD
  have hceil : ⌈(mx - mn) * 10 ^ prec⌉ = M - m := by rw [hD, Int.ceil_intCast]
  have hsize : arithSize mn mx prec = Nat.clog 2 ((M - m).toNat + 2) := by
    rw [arithSize, hceil]
  -- the encoded value fits in the field
  have hfit : R.toNat + 1 < 2 ^ arithSize mn mx prec := by
    have hb : (M - m).toNat + 2 ≤ 2 ^ Nat.clog 2 ((M - m).toNat + 2) :=
      Nat.le_pow_clog one_lt_two _
    have : R.toNat ≤ (M - m).toNat := Int.toNat_le_toNat hRD
    rw [hsize]
    omega
  have hnotlt : ¬(x < mn ∨ x > mx) := by
    push_neg
    exact ⟨h1, h2⟩
  have hfloor : ⌊(unbiased_round x prec - mn) * 10 ^ prec⌋ = R :=
    arith_wire_integer mn x prec m hm
  have henc : arithEncode mn mx prec x = ⟨arithSize mn mx prec, R.toNat + 1⟩ := by
    rw [arithEncode, if_neg hnotlt]
    show Bitset.ofULong _ _ = _
    rw [hfloor, Bitset.ofULong, Bitset.mk.injEq]
    exact ⟨rfl, Nat.mod_eq_of_lt hfit⟩
  refine ⟨henc, ?_, ?_, ?_⟩
  · intro w
    simp [arithDecode, Bitset.to_ulong]
  · intro w t ht
    simp [arithDecode, Bitset.to_ulong, ht]
  · rw [henc, arithDecode]
    simp only [Bitset.to_ulong]
    rw [if_neg (Nat.succ_ne_zero _)]
    have htQ : ((R.toNat + 1 : ℕ) : ℚ) - 1 = (R : ℚ) := by
      have h' : ((R.toNat : ℕ) : ℚ) = (R : ℚ) := by
        rw [← Int.cast_natCast, Int.toNat_of_nonneg hR0]
      push_cast
      rw [h']
      ring
    rw [htQ]
    -- both sides equal round(x * 10^p) / 10^p
    have hq : ((R : ℚ) / 10 ^ prec + mn) * 10 ^ prec = ((R + m : ℤ) : ℚ) := by
      rw [add_mul, div_mul_cancel₀ _ hpow.ne.symm, hm]
      push_cast; ring
    have hx : round (x * 10 ^ prec) = R + m := by
      have hsub : (x - mn) * 10 ^ prec = x * 10 ^ prec - (m : ℚ) := by
        rw [sub_mul, hm]
      rw [hR, hsub, round_sub_int]
      omega
    rw [unbiased_round, unbiased_round, hq, round_intCast, hx]

/-- Closed witness for `dccl_arith_codec_roundtrip`: field with
`min = 0`, `max = 10`, `precision = 1` and value `x = 3.7`. -/
theorem dccl_arith_codec_roundtrip_witness :
    ((0 : ℚ) ≤ 37 / 10 ∧ (37 / 10 : ℚ) ≤ 10)
    ∧ (arithEncode 0 10 1 (37 / 10) =
        ⟨arithSize 0 10 1, (round (((37 / 10 : ℚ) - 0) * 10 ^ (1 : ℤ))).toNat + 1⟩
      ∧ (∀ w, arithDecode 0 1 ⟨w, 0⟩ = none)
      ∧ (∀ w t, t ≠ 0 →
          arithDecode 0 1 ⟨w, t⟩ =
            some (unbiased_round (((t : ℚ) - 1) / 10 ^ (1 : ℤ) + 0) 1))
      ∧ arithDecode 0 1 (arithEncode 0 10 1 (37 / 10)) =
          some (unbiased_round (37 / 10) 1)) :=
  ⟨⟨by norm_num, by norm_num⟩,
    dccl_arith_codec_roundtrip 0 10 (37 / 10) 1
      ⟨0, by norm_num⟩ ⟨100, by norm_num⟩ (by norm_num) (by norm_num)⟩

/-- C2: a value strictly below the declared `min` or strictly above the
declared `max` encodes as the all-zero (absent) pattern of the field's
fixed width; it is never wrapped or truncated to a non-zero wire integer,
and decoding the result yields absent. -/
theorem dccl_arith_out_of_range (mn mx x : ℚ) (prec : ℤ)
    (h : x < mn ∨ x > mx) :
    arithEncode mn mx prec x = ⟨arithSize mn mx prec, 0⟩
    ∧ arithDecode mn prec (arithEncode mn mx prec x) = none := by
  have henc : arithEncode mn mx prec x = ⟨arithSize mn mx prec, 0⟩ := by
    rw [arithEncode, if_pos h, Bitset.ofULong]
    simp
  exact ⟨henc, by rw [henc]; simp [arithDecode, Bitset.to_ulong]⟩

/-- Closed witness for `dccl_arith_out_of_range`: `x = -1` is below
`min = 0`. -/
theorem dccl_arith_out_of_range_witness :
    ((-1 : ℚ) < 0 ∨ (-1 : ℚ) > 10)
    ∧ (arithEncode 0 10 1 (-1) = ⟨arithSize 0 10 1, 0⟩
      ∧ arithDecode 0 1 (arithEncode 0 10 1 (-1)) = none) :=
  ⟨Or.inl (by norm_num), dccl_arith_out_of_range 0 10 (-1) 1 (Or.inl (by norm_num))⟩

/-! ## Queue registration
    (`QueueManager::add_queue`, src/acomms/libqueue/queue_manager.cpp,
    lines 76-99) -/

/-- The queue kinds used by `queue_manager.cpp`. -/
inductive QueueType
  | queue_dccl
  | queue_ccl
  deriving DecidableEq, Repr

/-- A queue key `(kind, id)` as built by `add_queue`. -/
abbrev QueueKey := QueueType × Nat

/-- The two `std::runtime_error` cases of `add_queue`. -/
inductive AddQueueError
  | duplicate_key
  | id_too_large
  deriving DecidableEq, Repr

/-- `QueueManager::add_queue(cfg)` operating on the set of registered keys.
`maxId` stands for `MAX_ID` from `queue_constants.h` (not in src/; its
value does not matter to the theorems below).  The duplicate check comes
first; the id check reads `id > MAX_ID && type != queue_ccl`, so CCL
queues are never range-checked. -/
def add_queue (maxId : Nat) (k : QueueKey) (qs : List QueueKey) :
    Except AddQueueError (List QueueKey) :=
  if k ∈ qs then .error .duplicate_key
  else if k.2 > maxId ∧ k.1 ≠ .queue_ccl then .error .id_too_large
  else .ok (qs ++ [k])

/-- Counterexample to C6: a CCL queue whose id exceeds the claimed
CCL maximum of 31 (and even exceeds `MAX_ID`, here instantiated at 31) is
accepted by `add_queue`, not rejected with an id-too-large error. -/
theorem add_queue_ccl_not_range_checked :
    add_queue 31 (.queue_ccl, 32) [] =
      .ok [(QueueType.queue_ccl, 32)] := by
  simp [add_queue]

/-- C6 (amended): `add_queue` fails with a duplicate-key error for every
cfg whose `(kind, id)` is already registered; for a new key it fails with
an id-too-large error exactly when the kind is not CCL and the id exceeds
`MAX_ID` (CCL ids are not range-checked); on success the registered key
set grows by exactly that key. -/
theorem add_queue_spec (maxId : Nat) (k : QueueKey) (qs : List QueueKey) :
    (k ∈ qs → add_queue maxId k qs = .error .duplicate_key)
    ∧ (k ∉ qs → k.2 > maxId → k.1 ≠ .queue_ccl →
        add_queue maxId k qs = .error .id_too_large)
    ∧ (k ∉ qs → (k.2 ≤ maxId ∨ k.1 = .queue_ccl) →
        add_queue maxId k qs = .ok (qs ++ [k])) := by
  refine ⟨fun h => ?_, fun h h1 h2 => ?_, fun h h1 => ?_⟩
  · rw [add_queue, if_pos h]
  · rw [add_queue, if_neg h, if_pos ⟨h1, h2⟩]
  · rw [add_queue, if_neg h, if_neg ?_]
    rcases h1 with h1 | h1
    · exact fun hc => absurd h1 (not_le.mpr hc.1)
    · exact fun hc => hc.2 h1

/-- Closed witness for `add_queue_spec`: registering `(DCCL, 1)` into the
set holding only `(DCCL, 0)`. -/
theorem add_queue_spec_witness :
    (((QueueType.queue_dccl, 1) : QueueKey) ∈
        [((QueueType.queue_dccl, 0) : QueueKey)] →
      add_queue 7 (.queue_dccl, 1) [(.queue_dccl, 0)] = .error .duplicate_key)
    ∧ (((QueueType.queue_dccl, 1) : QueueKey) ∉
          [((QueueType.queue_dccl, 0) : QueueKey)] → 1 > 7 →
        (QueueType.queue_dccl, 1).1 ≠ .queue_ccl →
        add_queue 7 (.queue_dccl, 1) [(.queue_dccl, 0)] = .error .id_too_large)
    ∧ (((QueueType.queue_dccl, 1) : QueueKey) ∉
          [((QueueType.queue_dccl, 0) : QueueKey)] →
        (1 ≤ 7 ∨ (QueueType.queue_dccl, 1).1 = .queue_ccl) →
        add_queue 7 (.queue_dccl, 1) [(.queue_dccl, 0)] =
          .ok [(.queue_dccl, 0), (.queue_dccl, 1)]) :=
  add_queue_spec 7 (.queue_dccl, 1) [(.queue_dccl, 0)]

/-! ## The priority contest
    (`QueueManager::find_next_sender`, src/acomms/libqueue/queue_manager.cpp,
    lines 331-389) -/

/-- What one queue contributes to the priority contest: its kind and the
result of `priority_values` (`none` when the queue declines to bid). -/
structure ContestEntry where
  isCCL : Bool
  pv : Option (ℚ × ℚ)
  deriving DecidableEq

/-- The winner-replacement test of `find_next_sender`:
`!winning_var || priority > winning_priority ||
 (priority == winning_priority && last_send_time < winning_last_send_time)`. -/
def contestBetter : Option (Nat × ℚ × ℚ) → ℚ → ℚ → Bool
  | none, _, _ => true
  | some (_, wp, wlst), p, lst =>
      decide (p > wp) || (decide (p = wp) && decide (lst < wlst))

/-- The loop of `find_next_sender` over the queue map, tracking the index
of the current winner together with its priority and last-send time. -/
def fns_loop (ufn : Nat) :
    List ContestEntry → Nat → Option (Nat × ℚ × ℚ) → Option (Nat × ℚ × ℚ)
  | [], _, w => w
  | e :: rest, i, w =>
    match e.pv with
    | none => fns_loop ufn rest (i + 1) w
    | some (p, lst) =>
      if contestBetter w p lst && !(e.isCCL && decide (0 < ufn)) then
        fns_loop ufn rest (i + 1) (some (i, p, lst))
      else
        fns_loop ufn rest (i + 1) w

/-- `QueueManager::find_next_sender` reduced to the contest itself:
`user_frame_num` and the bids of the queues in map order. -/
def find_next_sender (ufn : Nat) (qs : List ContestEntry) :
    Option (Nat × ℚ × ℚ) :=
  fns_loop ufn qs 0 none

/-- A queue is eligible for the contest when it reports priority values
and it is not a CCL queue bidding for a user frame other than the first. -/
def contestEligible (ufn : Nat) (e : ContestEntry) : Prop :=
  e.pv ≠ none ∧ ¬(e.isCCL = true ∧ 0 < ufn)

instance (ufn : Nat) (e : ContestEntry) : Decidable (contestEligible ufn e) := by
  unfold contestEligible
  infer_instance

/-- Contest dominance: `a` wins against (or equals) a bid `b`, i.e. `b` has
lower priority, or the same priority and a last-send time no older. -/
def beats (a b : ℚ × ℚ) : Prop :=
  b.1 < a.1 ∨ (b.1 = a.1 ∧ a.2 ≤ b.2)

lemma beats_refl (a : ℚ × ℚ) : beats a a :=
  Or.inr ⟨rfl, le_refl _⟩

lemma beats_trans {a b c : ℚ × ℚ} (h1 : beats a b) (h2 : beats b c) :
    beats a c := by
  rcases h1 with h1 | ⟨h1, h1'⟩ <;> rcases h2 with h2 | ⟨h2, h2'⟩
  · exact Or.inl (lt_trans h2 h1)
  · exact Or.inl (h2 ▸ h1)
  · exact Or.inl (h1 ▸ h2)
  · exact Or.inr ⟨h1 ▸ h2, le_trans h1' h2'⟩

lemma contestBetter_true_beats {y : Nat × ℚ × ℚ} {p lst : ℚ}
    (h : contestBetter (some y) p lst = true) : beats (p, lst) y.2 := by
  obtain ⟨j, wp, wlst⟩ := y
  simp only [contestBetter, Bool.or_eq_true, Bool.and_eq_true,
    decide_eq_true_eq] at h
  rcases h with h | ⟨h, h'⟩
  · exact Or.inl h
  · exact Or.inr ⟨h.symm, le_of_lt h'⟩

lemma contestBetter_false_beats {y : Nat × ℚ × ℚ} {p lst : ℚ}
    (h : contestBetter (some y) p lst = false) : beats y.2 (p, lst) := by
  obtain ⟨j, wp, wlst⟩ := y
  simp only [contestBetter, Bool.or_eq_false_iff, Bool.and_eq_false_iff,
    decide_eq_false_iff_not, not_lt] at h
  obtain ⟨h1, h2⟩ := h
  rcases lt_or_eq_of_le h1 with h1 | h1
  · exact Or.inl h1
  · refine Or.inr ⟨h1, ?_⟩
    rcases h2 with h2 | h2
    · exact absurd h1 h2
    · exact h2

lemma bnot_true_of_not {b : Bool} (h : ¬((!b) = true)) : b = true := by
  cases b
  · exact absurd rfl h
  · rfl

/-- Combined loop invariant for `fns_loop`: characterises when the loop
returns no winner, where the winner comes from, and that the winner beats
every eligible bid of the scanned list as well as the incoming winner. -/
lemma fns_loop_spec (ufn : Nat) (l : List ContestEntry) :
    ∀ (i0 : Nat) (w : Option (Nat × ℚ × ℚ)),
    (fns_loop ufn l i0 w = none ↔
      (w = none ∧ ∀ q ∈ l, ¬contestEligible ufn q))
    ∧ (∀ x, fns_loop ufn l i0 w = some x →
        (w = some x ∨ ∃ k q, l.get? k = some q ∧ x.1 = i0 + k ∧
            q.pv = some x.2 ∧ ¬(q.isCCL = true ∧ 0 < ufn))
        ∧ (∀ q ∈ l, contestEligible ufn q → ∀ v, q.pv = some v → beats x.2 v)
        ∧ (∀ y, w = some y → beats x.2 y.2)) := by
  induction l with
  | nil =>
    intro i0 w
    refine ⟨by simp [fns_loop], fun x hx => ?_⟩
    simp only [fns_loop] at hx
    exact ⟨Or.inl hx, by simp, fun y hy => by
      rw [hy] at hx
      cases hx
      exact beats_refl _⟩
  | cons e rest ih =>
    intro i0 w
    match hpv : e.pv with
    | none =>
      have hrun : fns_loop ufn (e :: rest) i0 w = fns_loop ufn rest (i0 + 1) w := by
        simp [fns_loop, hpv]
      have he : ¬contestEligible ufn e := fun hc => hc.1 hpv
      constructor
      · rw [hrun, (ih (i0 + 1) w).1]
        constructor
        · rintro ⟨hw, hall⟩
          refine ⟨hw, fun q hq => ?_⟩
          rcases List.mem_cons.mp hq with hq | hq
          · exact hq ▸ he
          · exact hall q hq
        · rintro ⟨hw, hall⟩
          exact ⟨hw, fun q hq => hall q (List.mem_cons_of_mem _ hq)⟩
      · intro x hx
        rw [hrun] at hx
        obtain ⟨hsrc, hdom, hw⟩ := (ih (i0 + 1) w).2 x hx
        refine ⟨?_, ?_, hw⟩
        · rcases hsrc with hsrc | ⟨k, q, hk, hi, hq, hc⟩
          · exact Or.inl hsrc
          · exact Or.inr ⟨k + 1, q, hk, by omega, hq, hc⟩
        · intro q hq hel v hv
          rcases List.mem_cons.mp hq with hq | hq
          · subst hq
            rw [hpv] at hv
            cases hv
          · exact hdom q hq hel v hv
    | some pl =>
      obtain ⟨p, lst⟩ := pl
      have helig : contestEligible ufn e ↔ ¬(e.isCCL = true ∧ 0 < ufn) := by
        unfold contestEligible
        simp [hpv]
      by_cases hcond : (contestBetter w p lst && !(e.isCCL && decide (0 < ufn))) = true
      · -- the head replaces the current winner
        have hrun : fns_loop ufn (e :: rest) i0 w =
            fns_loop ufn rest (i0 + 1) (some (i0, p, lst)) := by
          simp only [fns_loop, hpv]
          rw [if_pos hcond]
        rw [Bool.and_eq_true] at hcond
        have hbet : contestBetter w p lst = true := hcond.1
        have hnotccl : ¬(e.isCCL = true ∧ 0 < ufn) := by
          rintro ⟨hc1, hc2⟩
          have h2 := hcond.2
          rw [hc1, decide_eq_true hc2] at h2
          simp at h2
        constructor
        · rw [hrun, (ih (i0 + 1) (some (i0, p, lst))).1]
          constructor
          · rintro ⟨h, -⟩
            cases h
          · rintro ⟨-, hall⟩
            exact absurd (helig.mpr hnotccl) (hall e (List.mem_cons_self e rest))
        · intro x hx
          rw [hrun] at hx
          obtain ⟨hsrc, hdom, hw⟩ := (ih (i0 + 1) (some (i0, p, lst))).2 x hx
          have hbx : beats x.2 (p, lst) := hw _ rfl
          refine ⟨?_, ?_, ?_⟩
          · rcases hsrc with hsrc | ⟨k, q, hk, hi, hq, hc⟩
            · cases hsrc
              exact Or.inr ⟨0, e, rfl, by omega, hpv, hnotccl⟩
            · exact Or.inr ⟨k + 1, q, hk, by omega, hq, hc⟩
          · intro q hq hel v hv
            rcases List.mem_cons.mp hq with hq | hq
            · subst hq
              rw [hpv] at hv
              simp only [Option.some.injEq] at hv
              subst hv
              exact hbx
            · exact hdom q hq hel v hv
          · intro y hy
            subst hy
            exact beats_trans hbx (contestBetter_true_beats hbet)
      · -- the head does not replace the current winner
        have hrun : fns_loop ufn (e :: rest) i0 w = fns_loop ufn rest (i0 + 1) w := by
          simp only [fns_loop, hpv]
          rw [if_neg hcond]
        rw [Bool.and_eq_true, not_and_or] at hcond
        constructor
        · rw [hrun, (ih (i0 + 1) w).1]
          constructor
          · rintro ⟨hw, hall⟩
            subst hw
            refine ⟨rfl, fun q hq => ?_⟩
            rcases List.mem_cons.mp hq with hq | hq
            · subst hq
              intro hel
              rcases hcond with h | h
              · exact h rfl
              · have hcc := bnot_true_of_not h
                rw [Bool.and_eq_true, decide_eq_true_eq] at hcc
                exact (helig.mp hel) hcc
            · exact hall q hq
          · rintro ⟨hw, hall⟩
            exact ⟨hw, fun q hq => hall q (List.mem_cons_of_mem _ hq)⟩
        · intro x hx
          rw [hrun] at hx
          obtain ⟨hsrc, hdom, hw⟩ := (ih (i0 + 1) w).2 x hx
          refine ⟨?_, ?_, hw⟩
          · rcases hsrc with hsrc | ⟨k, q, hk, hi, hq, hc⟩
            · exact Or.inl hsrc
            · exact Or.inr ⟨k + 1, q, hk, by omega, hq, hc⟩
          · intro q hq hel v hv
            rcases List.mem_cons.mp hq with hq | hq
            · subst hq
              rw [hpv] at hv
              simp only [Option.some.injEq] at hv
              subst hv
              rcases hcond with h | h
              · rcases hww : w with _ | y
                · subst hww
                  exact absurd rfl h
                · subst hww
                  have hf : contestBetter (some y) p lst = false := by
                    rcases Bool.eq_false_or_eq_true (contestBetter (some y) p lst) with h' | h'
                    · exact absurd h' h
                    · exact h'
                  exact beats_trans (hw y rfl) (contestBetter_false_beats hf)
              · have hcc := bnot_true_of_not h
                rw [Bool.and_eq_true, decide_eq_true_eq] at hcc
                exact absurd hcc (helig.mp hel)
            · exact hdom q hq hel v hv

/-- C4: in the priority contest, the returned queue is an eligible queue
that reported the returned (priority, last-send-time) pair and beats every
eligible bid (maximum priority; ties broken in favour of the oldest
last-send time); a CCL queue never wins when the user-frame index is
positive; and the contest returns no winner exactly when no eligible queue
reports a value. -/
theorem find_next_sender_spec (ufn : Nat) (qs : List ContestEntry) :
    (find_next_sender ufn qs = none ↔ ∀ q ∈ qs, ¬contestEligible ufn q)
    ∧ (∀ i p lst, find_next_sender ufn qs = some (i, p, lst) →
        (∃ q, qs.get? i = some q ∧ q.pv = some (p, lst) ∧
          ¬(q.isCCL = true ∧ 0 < ufn))
        ∧ ∀ q ∈ qs, contestEligible ufn q → ∀ p' l', q.pv = some (p', l') →
            p' < p ∨ (p' = p ∧ lst ≤ l')) := by
  have h := fns_loop_spec ufn qs 0 none
  constructor
  · rw [find_next_sender, h.1]
    simp
  · intro i p lst hx
    obtain ⟨hsrc, hdom, -⟩ := h.2 (i, p, lst) hx
    constructor
    · rcases hsrc with hsrc | ⟨k, q, hk, hi, hq, hc⟩
      · cases hsrc
      · exact ⟨q, by simpa [show i = k by omega] using hk, hq, hc⟩
    · intro q hq hel p' l' hv
      exact hdom q hq hel (p', l') hv

/-- Closed witness for `find_next_sender_spec`: a two-queue contest at
user-frame index 0. -/
theorem find_next_sender_spec_witness :
    (find_next_sender 0 [⟨false, some (4, 0)⟩, ⟨false, some (3, 1)⟩] = none ↔
      ∀ q ∈ [(⟨false, some (4, 0)⟩ : ContestEntry), ⟨false, some (3, 1)⟩],
        ¬contestEligible 0 q)
    ∧ (∀ i p lst,
        find_next_sender 0 [⟨false, some (4, 0)⟩, ⟨false, some (3, 1)⟩] =
          some (i, p, lst) →
        (∃ q, [(⟨false, some (4, 0)⟩ : ContestEntry),
            ⟨false, some (3, 1)⟩].get? i = some q ∧
          q.pv = some (p, lst) ∧ ¬(q.isCCL = true ∧ 0 < 0))
        ∧ ∀ q ∈ [(⟨false, some (4, 0)⟩ : ContestEntry), ⟨false, some (3, 1)⟩],
            contestEligible 0 q → ∀ p' l', q.pv = some (p', l') →
              p' < p ∨ (p' = p ∧ lst ≤ l')) :=
  find_next_sender_spec 0 [⟨false, some (4, 0)⟩, ⟨false, some (3, 1)⟩]

/-! ## DCCL header codec and packet stitching
    (`QueueManager::stitch_recursive` / `unstitch_recursive` /
    `publish_incoming_piece`, src/acomms/libqueue/queue_manager.cpp,
    lines 196-245 and 480-549).

    The C++ code manipulates hex-nibble strings; every offset it uses is a
    whole number of bytes (`NIBS_IN_BYTE = 2`), so frames are modelled as
    byte lists. -/

/-- Modelled from the spec: `DCCL_NUM_HEADER_BYTES` from
`queue_constants.h` (not in src/); the spec fixes a fixed-layout DCCL
head. -/
def DCCL_NUM_HEADER_BYTES : Nat := 6

/-- Modelled from the spec: the reserved CCL id byte announcing a DCCL
packet ("the DCCL marker is a specific constant CCL-id"). -/
def DCCL_CCL_HEADER : Nat := 32

/-- Modelled from the spec: the broadcast destination id. -/
def BROADCAST_ID : Nat := 0

/-- The fixed-layout DCCL sub-header: CCL-id byte, DCCL message id, time
of day, source modem id, destination modem id, multi-message flag,
broadcast flag (spec, section 3). -/
structure DCCLHeader where
  ccl_id : Nat
  dccl_id : Nat
  time : Nat
  src : Nat
  dest : Nat
  multimessage : Bool
  broadcast : Bool
  deriving DecidableEq, Repr

/-- Modelled from the spec: `DCCLHeaderEncoder` (not in src/) packs the
seven header fields into `DCCL_NUM_HEADER_BYTES` bytes; the packing below
keeps the CCL id in byte 0 and the two flags in the top bits of the last
byte, which is all `stitch`/`unstitch` rely on. -/
def headerEncode (h : DCCLHeader) : List Nat :=
  [h.ccl_id % 256, h.dccl_id % 256, h.time / 256 % 256, h.time % 256,
   h.src % 256,
   h.dest % 32 + 32 * (if h.multimessage then 1 else 0)
     + 64 * (if h.broadcast then 1 else 0)]

/-- Modelled from the spec: `DCCLHeaderDecoder` (not in src/), the inverse
of `headerEncode` on canonical headers; missing bytes read as zero. -/
def headerDecode (d : List Nat) : DCCLHeader :=
  { ccl_id := d.getD 0 0
    dccl_id := d.getD 1 0
    time := d.getD 2 0 * 256 + d.getD 3 0
    src := d.getD 4 0
    dest := d.getD 5 0 % 32
    multimessage := decide (d.getD 5 0 / 32 % 2 = 1)
    broadcast := decide (d.getD 5 0 / 64 % 2 = 1) }

/-- Header fields within the ranges the byte layout can carry. -/
def headerCanonical (h : DCCLHeader) : Prop :=
  h.ccl_id < 256 ∧ h.dccl_id < 256 ∧ h.time < 65536 ∧ h.src < 256 ∧ h.dest < 32

lemma headerEncode_length (h : DCCLHeader) :
    (headerEncode h).length = DCCL_NUM_HEADER_BYTES := rfl

instance (h : DCCLHeader) : Decidable (headerCanonical h) := by
  unfold headerCanonical
  infer_instance

lemma headerDecode_encode_append (h : DCCLHeader) (tail : List Nat)
    (hc : headerCanonical h) :
    headerDecode (headerEncode h ++ tail) = h := by
  obtain ⟨ccl, dccl, t, src, dest, mm, bc⟩ := h
  have h1 : ccl < 256 := hc.1
  have h2 : dccl < 256 := hc.2.1
  have h3 : t < 65536 := hc.2.2.1
  have h4 : src < 256 := hc.2.2.2.1
  have h5 : dest < 32 := hc.2.2.2.2
  cases mm <;> cases bc <;>
  · simp only [headerEncode, headerDecode, List.cons_append, List.nil_append,
      List.getD_cons_zero, List.getD_cons_succ, DCCLHeader.mk.injEq]
    simp only [Bool.false_eq_true, if_true, if_false, decide_eq_true_eq,
      decide_eq_false_iff_not]
    omega

/-- One stitched user frame as fed to `stitch_recursive`: the frame bytes
plus the destination from its envelope. -/
structure SubMsg where
  dest : Nat
  data : List Nat
  deriving DecidableEq, Repr

/-- `std::string::erase(pos, len)` on a byte list. -/
def eraseRange (l : List Nat) (pos len : Nat) : List Nat :=
  l.take pos ++ l.drop (pos + len)

/-- `QueueManager::stitch_recursive(data, in)`: sets the multimessage flag
on all but the last user frame and the broadcast flag per destination,
inserts the one-byte frame length after the header of all but the last
frame, re-encodes the header, strips each frame's CCL-id byte, and
finally prepends the single packet-level `DCCL_CCL_HEADER` byte.  An
empty message raises an exception (`none`); an empty deque dereferences
`in.front()` (also `none`). -/
def stitch_recursive (data : List Nat) : List SubMsg → Option (List Nat)
  | [] => none
  | message :: rest =>
    let is_last := rest.isEmpty
    if message.data.isEmpty then none
    else
      let head0 := headerDecode message.data
      let head := { head0 with multimessage := !is_last,
                               broadcast := message.dest == BROADCAST_ID }
      let new_data :=
        if is_last then message.data
        else
          message.data.take DCCL_NUM_HEADER_BYTES
            ++ [message.data.length - DCCL_NUM_HEADER_BYTES]
            ++ message.data.drop DCCL_NUM_HEADER_BYTES
      let new_data2 := headerEncode head ++ new_data.drop DCCL_NUM_HEADER_BYTES
      let acc := data ++ new_data2.drop 1
      if is_last then some (DCCL_CCL_HEADER :: acc)
      else stitch_recursive acc rest

/-- One user frame as handed to `publish_incoming_piece`. -/
structure IncomingPiece where
  data : List Nat
  dest : Nat
  dccl_id : Nat
  deriving DecidableEq, Repr

/-- `QueueManager::unstitch_recursive(data, message)`: carves each user
frame by its size byte (multimessage case), re-inserts the packet CCL-id
byte in front of the remainder, clears the multimessage and broadcast
flags of the carved frame, overwrites the destination with `BROADCAST_ID`
when the broadcast flag was set, and recurses.  Returns the pieces passed
to `publish_incoming_piece` in order. -/
def unstitch_recursive (data : List Nat) (original_dest : Nat) :
    List IncomingPiece :=
  let head := headerDecode data
  let frame_size := data.getD DCCL_NUM_HEADER_BYTES 0
  let data1 := eraseRange data DCCL_NUM_HEADER_BYTES 1
  let msg_data :=
    if head.multimessage then data1.take (frame_size + DCCL_NUM_HEADER_BYTES)
    else data
  let cleared := { head with multimessage := false, broadcast := false }
  let out_data := headerEncode cleared ++ msg_data.drop DCCL_NUM_HEADER_BYTES
  let piece : IncomingPiece :=
    { data := out_data
      dest := if head.broadcast then BROADCAST_ID else original_dest
      dccl_id := head.dccl_id }
  if hmm : (headerDecode data).multimessage = true then
    piece ::
      unstitch_recursive
        (eraseRange data1 1 (frame_size + DCCL_NUM_HEADER_BYTES - 1))
        original_dest
  else [piece]
termination_by data.length
decreasing_by
  have hlen : DCCL_NUM_HEADER_BYTES ≤ data.length := by
    by_contra hlt
    push_neg at hlt
    simp only [DCCL_NUM_HEADER_BYTES] at hlt
    have h0 : data.getD 5 0 = 0 := List.getD_eq_default _ _ (by omega)
    rw [List.getD_eq_getElem?_getD] at h0
    simp [headerDecode, List.getD_eq_getElem?_getD, h0] at hmm
  simp only [eraseRange, List.length_append, List.length_take, List.length_drop]
  simp only [DCCL_NUM_HEADER_BYTES] at *
  omega

lemma take_len_append {A : Type} (a b : List A) (n : Nat) (h : a.length = n) :
    (a ++ b).take n = a := by
  subst h
  exact List.take_left a b

lemma drop_len_append {A : Type} (a b : List A) (n : Nat) (h : a.length = n) :
    (a ++ b).drop n = b := by
  subst h
  exact List.drop_left a b

lemma take_len_add_append {A : Type} (a b : List A) (n m : Nat)
    (h : a.length = n) : (a ++ b).take (n + m) = a ++ b.take m := by
  subst h
  exact List.take_append m

lemma drop_len_add_append {A : Type} (a b : List A) (n m : Nat)
    (h : a.length = n) : (a ++ b).drop (n + m) = b.drop m := by
  subst h
  exact List.drop_append m

lemma getD_len_append (a b : List Nat) (n : Nat) (h : a.length = n) :
    (a ++ b).getD n 0 = b.getD 0 0 := by
  subst h
  rw [List.getD_eq_getElem?_getD, List.getD_eq_getElem?_getD,
    List.getElem?_append_right (le_refl _)]
  simp

lemma encode_append_drop_one (H : DCCLHeader) (x : List Nat) :
    (headerEncode H ++ x).drop 1 = (headerEncode H).drop 1 ++ x :=
  List.drop_append_of_le_length (by simp [headerEncode])

/-- The header `stitch_recursive` writes for frame `f`: multimessage set
unless the frame is last, broadcast set per the envelope destination. -/
def stitchHead (f : SubMsg) (is_last : Bool) : DCCLHeader :=
  { headerDecode f.data with multimessage := !is_last,
                             broadcast := f.dest == BROADCAST_ID }

/-- The stitched packet without its leading `DCCL_CCL_HEADER` byte:
header (minus CCL byte), size byte for all but the last frame, body. -/
def stitchBody : List SubMsg → List Nat
  | [] => []
  | [f] =>
    (headerEncode (stitchHead f true)).drop 1
      ++ f.data.drop DCCL_NUM_HEADER_BYTES
  | f :: g :: rest =>
    (headerEncode (stitchHead f false)).drop 1
      ++ [f.data.length - DCCL_NUM_HEADER_BYTES]
      ++ f.data.drop DCCL_NUM_HEADER_BYTES
      ++ stitchBody (g :: rest)

/-- A well-formed DCCL user frame as assumed by the round-trip property:
a canonical header carrying the DCCL CCL id with both flags clear,
followed by a body short enough for the one-byte size prefix. -/
def FrameWF (f : SubMsg) : Prop :=
  ∃ h body, f.data = headerEncode h ++ body ∧ headerCanonical h ∧
    h.ccl_id = DCCL_CCL_HEADER ∧ h.multimessage = false ∧
    h.broadcast = false ∧ body.length < 256

/-- `stitch_recursive` produces the packet-level CCL byte followed by the
accumulated data and the stitched frames. -/
lemma stitch_recursive_eq :
    ∀ (frames : List SubMsg), (∀ f ∈ frames, FrameWF f) →
    frames ≠ [] →
    ∀ acc : List Nat,
      stitch_recursive acc frames =
        some (DCCL_CCL_HEADER :: (acc ++ stitchBody frames))
  | [], _, hne => absurd rfl hne
  | [f], hwf, _ => by
    intro acc
    obtain ⟨h, body, hdata, hcanon, hccl, hmm, hbc, hblen⟩ := hwf f (by simp)
    have hfe : f.data.isEmpty = false := by
      rw [hdata]
      simp [headerEncode]
    rw [stitch_recursive]
    simp only [List.isEmpty_nil, hfe, Bool.false_eq_true, if_false,
      Bool.not_true, if_true, stitchBody, stitchHead]
    rw [hdata, drop_len_append _ _ _ (headerEncode_length h),
      encode_append_drop_one]
  | f :: g :: rest, hwf, _ => by
    intro acc
    obtain ⟨h, body, hdata, hcanon, hccl, hmm, hbc, hblen⟩ := hwf f (by simp)
    have hfe : f.data.isEmpty = false := by
      rw [hdata]
      simp [headerEncode]
    have hrest : ∀ x ∈ g :: rest, FrameWF x := fun x hx =>
      hwf x (List.mem_cons_of_mem _ hx)
    rw [stitch_recursive]
    simp only [List.isEmpty_cons, hfe, Bool.false_eq_true, if_false,
      Bool.not_false, if_true]
    rw [stitch_recursive_eq (g :: rest) hrest (by simp)]
    congr 1
    rw [hdata, take_len_append _ _ _ (headerEncode_length h),
      drop_len_append _ _ _ (headerEncode_length h)]
    have hsz : (headerEncode h ++ body).length - DCCL_NUM_HEADER_BYTES
        = body.length := by
      rw [List.length_append, headerEncode_length]
      omega
    rw [hsz]
    have hnd : (headerEncode h ++ ([body.length] ++ body)).drop
        DCCL_NUM_HEADER_BYTES = [body.length] ++ body :=
      drop_len_append _ _ _ (headerEncode_length h)
    simp only [List.append_assoc, hnd]
    rw [encode_append_drop_one]
    simp only [stitchBody, stitchHead, hdata,
      drop_len_append _ _ _ (headerEncode_length h),
      take_len_append _ _ _ (headerEncode_length h), hsz, Bool.not_false,
      List.append_assoc, List.cons_append, List.nil_append]

lemma clear_flags_eq (h : DCCLHeader) (hmm : h.multimessage = false)
    (hbc : h.broadcast = false) :
    ({ h with multimessage := false, broadcast := false } : DCCLHeader) = h := by
  obtain ⟨ccl, dccl, t, src, dest, mm, bc⟩ := h
  simp_all

lemma ccl_cons_encode (H : DCCLHeader) (hc : H.ccl_id = DCCL_CCL_HEADER) :
    DCCL_CCL_HEADER :: (headerEncode H).drop 1 = headerEncode H := by
  simp [headerEncode, hc, DCCL_CCL_HEADER]

lemma encode_take_one (H : DCCLHeader) (hc : H.ccl_id = DCCL_CCL_HEADER)
    (x : List Nat) : (headerEncode H ++ x).take 1 = [DCCL_CCL_HEADER] := by
  simp [headerEncode, hc, DCCL_CCL_HEADER]

/-- The piece `unstitch_recursive` hands to `publish_incoming_piece` for a
well-formed frame `f` of a packet originally addressed to
`original_dest`. -/
def unstitchedPiece (f : SubMsg) (original_dest : Nat) : IncomingPiece :=
  { data := f.data
    dest := if f.dest == BROADCAST_ID then BROADCAST_ID else original_dest
    dccl_id := (headerDecode f.data).dccl_id }

/-- `unstitch_recursive` recovers the frames of a stitched packet. -/
lemma unstitch_stitchBody :
    ∀ (frames : List SubMsg), (∀ f ∈ frames, FrameWF f) → frames ≠ [] →
    ∀ od : Nat,
      unstitch_recursive (DCCL_CCL_HEADER :: stitchBody frames) od =
        frames.map (fun f => unstitchedPiece f od)
  | [], _, hne => absurd rfl hne
  | [f], hwf, _ => by
    intro od
    obtain ⟨h, body, hdata, hcanon, hccl, hmm, hbc, hblen⟩ := hwf f (by simp)
    have hhd : headerDecode f.data = h := by
      rw [hdata]
      exact headerDecode_encode_append h body hcanon
    have hh1 : stitchHead f true =
        { h with multimessage := false, broadcast := f.dest == BROADCAST_ID } := by
      rw [stitchHead, hhd]
      rfl
    have hcanon1 : headerCanonical
        ({ h with multimessage := false, broadcast := f.dest == BROADCAST_ID } : DCCLHeader) := hcanon
    have hccl1 : ({ h with multimessage := false, broadcast := f.dest == BROADCAST_ID } : DCCLHeader).ccl_id = DCCL_CCL_HEADER := hccl
    have hP : DCCL_CCL_HEADER :: stitchBody [f] =
        headerEncode ({ h with multimessage := false, broadcast := f.dest == BROADCAST_ID } : DCCLHeader) ++ body := by
      rw [stitchBody, hh1, hdata,
        drop_len_append _ _ _ (headerEncode_length h), ← List.cons_append,
        ccl_cons_encode _ hccl1]
    rw [hP, unstitch_recursive]
    have hdec : headerDecode (headerEncode ({ h with multimessage := false, broadcast := f.dest == BROADCAST_ID } : DCCLHeader) ++ body)
        = { h with multimessage := false, broadcast := f.dest == BROADCAST_ID } :=
      headerDecode_encode_append _ body hcanon1
    rw [hdec]
    simp only [Bool.false_eq_true, eq_self_iff_true, dite_false, if_false,
      List.map_cons, List.map_nil]
    rw [drop_len_append _ _ _ (headerEncode_length _)]
    have hclear : ({ { h with multimessage := false, broadcast := f.dest == BROADCAST_ID } with multimessage := false, broadcast := false } : DCCLHeader) = h :=
      clear_flags_eq h hmm hbc
    rw [hclear, ← hdata, unstitchedPiece, hhd]
  | f :: g :: rest, hwf, _ => by
    intro od
    obtain ⟨h, body, hdata, hcanon, hccl, hmm, hbc, hblen⟩ := hwf f (by simp)
    have hhd : headerDecode f.data = h := by
      rw [hdata]
      exact headerDecode_encode_append h body hcanon
    have hrest : ∀ x ∈ g :: rest, FrameWF x := fun x hx =>
      hwf x (List.mem_cons_of_mem _ hx)
    have hh1 : stitchHead f false =
        { h with multimessage := true, broadcast := f.dest == BROADCAST_ID } := by
      rw [stitchHead, hhd]
      rfl
    have hcanon1 : headerCanonical
        ({ h with multimessage := true, broadcast := f.dest == BROADCAST_ID } : DCCLHeader) := hcanon
    have hccl1 : ({ h with multimessage := true, broadcast := f.dest == BROADCAST_ID } : DCCLHeader).ccl_id = DCCL_CCL_HEADER := hccl
    have hsz : f.data.length - DCCL_NUM_HEADER_BYTES = body.length := by
      rw [hdata, List.length_append, headerEncode_length]
      omega
    have hP : DCCL_CCL_HEADER :: stitchBody (f :: g :: rest) =
        headerEncode ({ h with multimessage := true, broadcast := f.dest == BROADCAST_ID } : DCCLHeader)
        ++ ([body.length] ++ (body ++ stitchBody (g :: rest))) := by
      rw [stitchBody, hh1, hsz, hdata,
        drop_len_append _ _ _ (headerEncode_length h)]
      simp only [List.append_assoc]
      rw [← List.cons_append, ccl_cons_encode _ hccl1]
    rw [hP, unstitch_recursive]
    have hdec : headerDecode (headerEncode ({ h with multimessage := true, broadcast := f.dest == BROADCAST_ID } : DCCLHeader)
        ++ ([body.length] ++ (body ++ stitchBody (g :: rest))))
        = { h with multimessage := true, broadcast := f.dest == BROADCAST_ID } :=
      headerDecode_encode_append _ _ hcanon1
    rw [hdec]
    simp only [Bool.false_eq_true, eq_self_iff_true, dite_true, if_true,
      List.map_cons]
    -- reduce the carved data and the remainder
    have hget : (headerEncode ({ h with multimessage := true, broadcast := f.dest == BROADCAST_ID } : DCCLHeader)
        ++ ([body.length] ++ (body ++ stitchBody (g :: rest)))).getD
          DCCL_NUM_HEADER_BYTES 0 = body.length := by
      rw [getD_len_append _ _ _ (headerEncode_length _)]
      simp
    rw [hget]
    rw [eraseRange,
      take_len_append _ _ _ (headerEncode_length _),
      drop_len_add_append _ _ _ _ (headerEncode_length _)]
    simp only [List.singleton_append, List.drop_one, List.tail_cons]
    rw [Nat.add_comm body.length DCCL_NUM_HEADER_BYTES,
      take_len_add_append _ _ _ _ (headerEncode_length _),
      take_len_append body (stitchBody (g :: rest)) _ rfl]
    rw [eraseRange]
    have h1 : 1 + (DCCL_NUM_HEADER_BYTES + body.length - 1)
        = DCCL_NUM_HEADER_BYTES + body.length := by
      simp only [DCCL_NUM_HEADER_BYTES]
      omega
    rw [h1, drop_len_add_append _ _ _ _ (headerEncode_length _),
      drop_len_append body (stitchBody (g :: rest)) _ rfl,
      encode_take_one _ hccl1]
    have hclear : ({ { h with multimessage := true, broadcast := f.dest == BROADCAST_ID } with multimessage := false, broadcast := false } : DCCLHeader) = h :=
      clear_flags_eq h hmm hbc
    rw [drop_len_append _ _ _ (headerEncode_length _), hclear, ← hdata]
    rw [show ([DCCL_CCL_HEADER] ++ stitchBody (g :: rest))
        = DCCL_CCL_HEADER :: stitchBody (g :: rest) from rfl]
    rw [unstitch_stitchBody (g :: rest) hrest (by simp) od]
    rw [unstitchedPiece, hhd, List.map_cons]

/-- C3: for a nonempty sequence of well-formed user frames, stitching
prepends the packet-level DCCL CCL-id byte (stripping each frame's own
CCL-id byte and inserting a one-byte frame-length before the body of every
frame except the last), and unstitching the stitched packet carves each
sub-frame by its size byte, re-inserts the CCL-id byte, clears the
multi-message and broadcast flags, and yields back exactly the original
frames. -/
theorem stitch_unstitch_roundtrip (frames : List SubMsg) (od : Nat)
    (hwf : ∀ f ∈ frames, FrameWF f) (hne : frames ≠ []) :
    stitch_recursive [] frames = some (DCCL_CCL_HEADER :: stitchBody frames)
    ∧ unstitch_recursive (DCCL_CCL_HEADER :: stitchBody frames) od =
        frames.map (fun f => unstitchedPiece f od)
    ∧ (unstitch_recursive (DCCL_CCL_HEADER :: stitchBody frames) od).map
        IncomingPiece.data = frames.map SubMsg.data := by
  have h1 := stitch_recursive_eq frames hwf hne []
  rw [List.nil_append] at h1
  have h2 := unstitch_stitchBody frames hwf hne od
  refine ⟨h1, h2, ?_⟩
  rw [h2, List.map_map]
  rfl

/-- Closed witness for `stitch_unstitch_roundtrip`: two frames, the second
addressed to broadcast. -/
theorem stitch_unstitch_roundtrip_witness :
    stitch_recursive []
        [⟨3, [32, 5, 0, 0, 1, 2, 7, 8]⟩, ⟨0, [32, 9, 0, 0, 1, 2, 4]⟩] =
      some (DCCL_CCL_HEADER ::
        stitchBody [⟨3, [32, 5, 0, 0, 1, 2, 7, 8]⟩, ⟨0, [32, 9, 0, 0, 1, 2, 4]⟩])
    ∧ unstitch_recursive
        (DCCL_CCL_HEADER ::
          stitchBody [⟨3, [32, 5, 0, 0, 1, 2, 7, 8]⟩, ⟨0, [32, 9, 0, 0, 1, 2, 4]⟩]) 9 =
        [(⟨3, [32, 5, 0, 0, 1, 2, 7, 8]⟩ : SubMsg),
          ⟨0, [32, 9, 0, 0, 1, 2, 4]⟩].map (fun f => unstitchedPiece f 9)
    ∧ (unstitch_recursive
        (DCCL_CCL_HEADER ::
          stitchBody [⟨3, [32, 5, 0, 0, 1, 2, 7, 8]⟩, ⟨0, [32, 9, 0, 0, 1, 2, 4]⟩]) 9).map
        IncomingPiece.data =
        [(⟨3, [32, 5, 0, 0, 1, 2, 7, 8]⟩ : SubMsg),
          ⟨0, [32, 9, 0, 0, 1, 2, 4]⟩].map SubMsg.data :=
  stitch_unstitch_roundtrip
    [⟨3, [32, 5, 0, 0, 1, 2, 7, 8]⟩, ⟨0, [32, 9, 0, 0, 1, 2, 4]⟩] 9
    (by
      intro f hf
      rcases List.mem_cons.mp hf with hf | hf
      · exact hf ▸
          ⟨⟨32, 5, 0, 1, 2, false, false⟩, [7, 8], by decide, by decide,
            by decide, rfl, rfl, by decide⟩
      · rcases List.mem_cons.mp hf with hf | hf
        · exact hf ▸
            ⟨⟨32, 9, 0, 1, 2, false, false⟩, [4], by decide, by decide,
              by decide, rfl, rfl, by decide⟩
        · cases hf)
    (by simp)

/-! ## Incoming dispatch filter
    (`QueueManager::publish_incoming_piece`, queue_manager.cpp,
    lines 527-549) -/

/-- `QueueManager::publish_incoming_piece(message, incoming_var_id)`:
drops the frame when it is addressed neither to broadcast nor to our own
modem id, then looks up the `(queue_dccl, id)` queue; returns the key the
receive callback fires for, or `none` when no callback fires. -/
def publish_incoming_piece (modem_id : Nat) (keys : List QueueKey)
    (msg : IncomingPiece) : Option QueueKey :=
  if msg.dest ≠ BROADCAST_ID ∧ msg.dest ≠ modem_id then none
  else if (QueueType.queue_dccl, msg.dccl_id) ∈ keys then
    some (QueueType.queue_dccl, msg.dccl_id)
  else none

/-- C10: the receive callback fires only for frames addressed to our own
modem id or to broadcast (and only into a registered DCCL queue); a frame
addressed to any other id is dropped with no callback, and a frame whose
sub-header broadcast flag is set leaves `unstitch_recursive` with its
destination overwritten to `BROADCAST_ID`. -/
theorem publish_incoming_filter (modem_id : Nat) (keys : List QueueKey)
    (msg : IncomingPiece) :
    (∀ k, publish_incoming_piece modem_id keys msg = some k →
      (msg.dest = BROADCAST_ID ∨ msg.dest = modem_id)
      ∧ k = (QueueType.queue_dccl, msg.dccl_id) ∧ k ∈ keys)
    ∧ (msg.dest ≠ BROADCAST_ID → msg.dest ≠ modem_id →
        publish_incoming_piece modem_id keys msg = none)
    ∧ (∀ data od, ((unstitch_recursive data od).head?.map IncomingPiece.dest)
        = some (if (headerDecode data).broadcast then BROADCAST_ID else od)) := by
  refine ⟨fun k hk => ?_, fun h1 h2 => ?_, fun data od => ?_⟩
  · rw [publish_incoming_piece] at hk
    by_cases hd : msg.dest ≠ BROADCAST_ID ∧ msg.dest ≠ modem_id
    · rw [if_pos hd] at hk
      cases hk
    · rw [if_neg hd] at hk
      push_neg at hd
      by_cases hmem : (QueueType.queue_dccl, msg.dccl_id) ∈ keys
      · rw [if_pos hmem] at hk
        cases hk
        refine ⟨?_, rfl, hmem⟩
        by_cases hb : msg.dest = BROADCAST_ID
        · exact Or.inl hb
        · exact Or.inr (hd hb)
      · rw [if_neg hmem] at hk
        cases hk
  · rw [publish_incoming_piece, if_pos ⟨h1, h2⟩]
  · rw [unstitch_recursive]
    by_cases hmm : (headerDecode data).multimessage = true
    · rw [dif_pos hmm]
      rfl
    · rw [dif_neg hmm]
      rfl

/-- Closed witness for `publish_incoming_filter`. -/
theorem publish_incoming_filter_witness :
    (∀ k, publish_incoming_piece 1 [(QueueType.queue_dccl, 5)]
        ⟨[32, 5, 0, 0, 1, 2], 2, 5⟩ = some k →
      (((⟨[32, 5, 0, 0, 1, 2], 2, 5⟩ : IncomingPiece).dest = BROADCAST_ID
          ∨ (⟨[32, 5, 0, 0, 1, 2], 2, 5⟩ : IncomingPiece).dest = 1)
        ∧ k = (QueueType.queue_dccl, 5) ∧ k ∈ [(QueueType.queue_dccl, 5)]))
    ∧ ((⟨[32, 5, 0, 0, 1, 2], 2, 5⟩ : IncomingPiece).dest ≠ BROADCAST_ID →
        (⟨[32, 5, 0, 0, 1, 2], 2, 5⟩ : IncomingPiece).dest ≠ 1 →
        publish_incoming_piece 1 [(QueueType.queue_dccl, 5)]
          ⟨[32, 5, 0, 0, 1, 2], 2, 5⟩ = none)
    ∧ (∀ data od, ((unstitch_recursive data od).head?.map IncomingPiece.dest)
        = some (if (headerDecode data).broadcast then BROADCAST_ID else od)) := by
  have h := publish_incoming_filter 1 [(QueueType.queue_dccl, 5)]
    ⟨[32, 5, 0, 0, 1, 2], 2, 5⟩
  exact ⟨fun k hk => by
      obtain ⟨ha, hb, hc⟩ := h.1 k hk
      exact ⟨by simpa using ha, hb, hc⟩, h.2.1, h.2.2⟩

/-! ## Queue manager outbound slot fill and ACK handling
    (`QueueManager::provide_outgoing_modem_data` / `handle_modem_ack`,
    queue_manager.cpp, lines 266-328 and 392-439).

    The `Queue` member functions (`give_data`, `pop_message`,
    `pop_message_ack`, `priority_values`, `expire`) live in `queue.cpp`,
    which is not part of src/; they are modelled from the spec
    (sections 3 and 4.3) in a way consistent with how
    `queue_manager.cpp` calls them: `give_data` returns the next message
    and records the queue-side ACK entry for ACK-required messages, while
    the immediate pop of non-ACK messages is performed by the manager via
    `pop_message`. -/

/-- A queued encoded message with its envelope metadata. -/
structure QMsg where
  dest : Nat
  data : List Nat
  ack : Bool
  time : ℚ
  deriving DecidableEq, Repr

/-- One queue: configuration, the insertion-ordered message list, and the
frame-to-message ACK multimap. -/
structure Queue where
  qtype : QueueType
  id : Nat
  newest_first : Bool
  base : ℚ
  ptc : ℚ
  blackout : ℚ
  ttl : ℚ
  last_send_time : ℚ
  messages : List QMsg
  waiting : List (Nat × QMsg)
  deriving DecidableEq, Repr

/-- Modelled from the spec: the message `give_data`/`pop_message` operate
on -- the head of the list, or the back under `newest_first`. -/
def Queue.nextMsg (q : Queue) : Option QMsg :=
  if q.newest_first then q.messages.getLast? else q.messages.head?

/-- Modelled from the spec: `newest_msg_time` is the timestamp of
`messages_.back()` (queue.h, lines 91-97). -/
def Queue.newest_msg_time (q : Queue) : ℚ :=
  match q.messages.getLast? with
  | none => 0
  | some m => m.time

/-- Modelled from the spec: `Queue::priority_values` returns no bid when
the queue is empty, in blackout, or its next message does not fit the
remaining request size; otherwise
`priority = base * (1 + (now - newest_msg_time) / priority_time_constant)`
together with `last_send_time` for the tie-break. -/
def Queue.priority_values (q : Queue) (now : ℚ) (request_size : Nat) :
    Option (ℚ × ℚ) :=
  match q.nextMsg with
  | none => none
  | some m =>
    if now - q.last_send_time < q.blackout then none
    else if request_size < m.data.length then none
    else some (q.base * (1 + (now - q.newest_msg_time) / q.ptc),
      q.last_send_time)

/-- Modelled from the spec: `Queue::give_data(frame)` returns the next
message, stamps the send time, and inserts a `(frame, message)` entry in
the queue ACK multimap when the message requires ACK; the message list is
untouched (the caller pops non-ACK messages). -/
def Queue.give_data (q : Queue) (frame : Nat) (now : ℚ) :
    Option (QMsg × Queue) :=
  match q.nextMsg with
  | none => none
  | some m =>
    some (m, { q with
      last_send_time := now
      waiting := if m.ack then q.waiting ++ [(frame, m)] else q.waiting })

/-- Modelled from the spec: `Queue::pop_message(frame)` removes the
message just handed out (head or back per `newest_first`). -/
def Queue.pop_message (q : Queue) : Queue :=
  { q with messages :=
      if q.newest_first then q.messages.dropLast else q.messages.tail }

/-- Modelled from the spec: `Queue::pop_message_ack(frame)` pops the first
ACK entry under `frame` and erases that message from the list; fails when
no entry exists. -/
def Queue.pop_message_ack (q : Queue) (frame : Nat) :
    Option (QMsg × Queue) :=
  match q.waiting.find? (fun e => e.1 == frame) with
  | none => none
  | some e =>
    some (e.2, { q with
      waiting := q.waiting.eraseP (fun x => x.1 == frame)
      messages := q.messages.erase e.2 })

/-- Modelled from the spec: `Queue::expire()` removes every message older
than TTL from now and returns them. -/
def Queue.expire (q : Queue) (now : ℚ) : List QMsg × Queue :=
  (q.messages.filter (fun m => decide (m.time + q.ttl < now)),
   { q with messages :=
      q.messages.filter (fun m => !decide (m.time + q.ttl < now)) })

/-- The queue-manager state: our modem id, the queue map (in map order),
the packet-level frame-to-queue ACK multimap, and the packet ACK flag. -/
structure QMState where
  modem_id : Nat
  queues : List Queue
  waiting_for_ack : List (Nat × Nat)
  packet_ack : Bool
  deriving DecidableEq, Repr

/-- `QueueManager::clear_packet()`: clears the queue-side ACK multimaps of
the queues referenced by `waiting_for_ack_`, then the manager multimap and
the packet ACK flag. -/
def clear_packet (st : QMState) : QMState :=
  { st with
    queues := st.queues.mapIdx (fun i q =>
      if st.waiting_for_ack.any (fun e => e.2 == i) then
        { q with waiting := [] }
      else q)
    waiting_for_ack := []
    packet_ack := false }

/-- What one queue contributes to `find_next_sender` (the on-demand upcall
of lines 346-357 is omitted: queues are modelled without `on_demand`). -/
def queueEntry (now : ℚ) (request_size : Nat) (q : Queue) : ContestEntry :=
  ⟨q.qtype == QueueType.queue_ccl, q.priority_values now request_size⟩

/-- A `data_request` from the driver. -/
structure DataRequest where
  src : Nat
  dest : Nat
  frame : Nat
  size : Nat
  deriving DecidableEq, Repr

/-- One iteration of the fill loop of `provide_outgoing_modem_data` for
winner index `qi`: `give_data`, make the packet ACK flag sticky
(`if (packet_ack_ == false) packet_ack_ = next_message.ack()`), then
either pop the message (packet ACK still false) or record the
`(frame, queue)` entry in the manager ACK multimap. -/
def provide_step (now : ℚ) (frame : Nat) (st : QMState) (qi : Nat) :
    Option (QMState × QMsg) :=
  match st.queues.get? qi with
  | none => none
  | some q =>
    match q.give_data frame now with
    | none => none
    | some (m, q1) =>
      let pa := st.packet_ack || m.ack
      let q2 := if pa then q1 else q1.pop_message
      some ({ st with
        queues := st.queues.set qi q2
        packet_ack := pa
        waiting_for_ack :=
          if pa then st.waiting_for_ack ++ [(frame, qi)]
          else st.waiting_for_ack }, m)

/-- The `while (winning_var)` loop: repeat `provide_step`, subtract the
consumed bytes, and re-run the contest while room remains and the last
winner was not CCL.  `fuel` bounds the iteration count (the caller passes
more fuel than the request size, which the C++ loop can consume). -/
def provide_loop (now : ℚ) (frame : Nat) :
    Nat → QMState → Nat → Nat → List QMsg → QMState × Nat × List QMsg
  | 0, st, size, _, acc => (st, size, acc)
  | fuel + 1, st, size, qi, acc =>
    match provide_step now frame st qi with
    | none => (st, size, acc)
    | some (st1, m) =>
      let acc1 := acc ++ [m]
      let size1 := size - m.data.length
      let isccl := ((st.queues.get? qi).map Queue.qtype
        == some QueueType.queue_ccl)
      if DCCL_NUM_HEADER_BYTES < size1 ∧ isccl = false then
        match find_next_sender acc1.length
            (st1.queues.map (queueEntry now size1)) with
        | none => (st1, size1, acc1)
        | some (j, _, _) => provide_loop now frame fuel st1 size1 j acc1
      else (st1, size1, acc1)

/-- `QueueManager::provide_outgoing_modem_data`: reset packet ACK state on
frame 0 or 1, run the priority contest for the first user frame (blank
message when no winner, modelled as packet `some []`), fill the packet,
and stitch the collected user frames. -/
def provide_outgoing_modem_data (now : ℚ) (req : DataRequest)
    (st0 : QMState) : QMState × List QMsg × Option (List Nat) :=
  let st := if req.frame = 1 ∨ req.frame = 0 then clear_packet st0 else st0
  match find_next_sender 0 (st.queues.map (queueEntry now req.size)) with
  | none => (st, [], some [])
  | some (qi, _, _) =>
    let r := provide_loop now req.frame (req.size + 1) st req.size qi []
    (r.1, r.2.2,
      stitch_recursive [] (r.2.2.map (fun m => ⟨m.dest, m.data⟩)))

/-- An ACK from the modem. -/
structure AckIn where
  dest : Nat
  frame : Nat
  deriving DecidableEq, Repr

/-- The `while (it != end)` loop of `handle_modem_ack`: process every
`(frame, queue)` entry under the acknowledged frame in order, popping the
message from the queue (a failed pop only logs) and collecting one
callback per popped message. -/
def handle_ack_entries (frame : Nat) :
    List (Nat × Nat) → List Queue →
    List Queue × List (Nat × Nat) × List (Nat × QMsg)
  | [], qs => (qs, [], [])
  | (f, qi) :: rest, qs =>
    if f = frame then
      match qs.get? qi with
      | none => handle_ack_entries frame rest qs
      | some q =>
        match q.pop_message_ack frame with
        | none => handle_ack_entries frame rest qs
        | some (m, q1) =>
          let r := handle_ack_entries frame rest (qs.set qi q1)
          (r.1, r.2.1, (qi, m) :: r.2.2)
    else
      let r := handle_ack_entries frame rest qs
      (r.1, (f, qi) :: r.2.1, r.2.2)

/-- `QueueManager::handle_modem_ack`: ignore ACKs not addressed to us and
ACKs for frames with no pending entry; otherwise pop every entry under the
frame and return the `(queue index, message)` callbacks fired. -/
def handle_modem_ack (msg : AckIn) (st : QMState) :
    QMState × List (Nat × QMsg) :=
  if msg.dest ≠ st.modem_id then (st, [])
  else if ∀ e ∈ st.waiting_for_ack, e.1 ≠ msg.frame then (st, [])
  else
    let r := handle_ack_entries msg.frame st.waiting_for_ack st.queues
    ({ st with queues := r.1, waiting_for_ack := r.2.1 }, r.2.2)

/-- Two-queue scenario for the packet ACK discipline: queue 0 holds a
high-priority ACK-required message, queue 1 a lower-priority message with
`ack = false`. -/
def cexMsgA : QMsg := ⟨2, [32, 1, 0, 0, 1, 2, 7, 8, 9, 10, 11, 12], true, 9⟩

/-- The non-ACK message of the scenario. -/
def cexMsgB : QMsg := ⟨2, [32, 2, 0, 0, 1, 2, 4], false, 9⟩

/-- Queue 0 of the scenario. -/
def cexQueueA : Queue :=
  { qtype := .queue_dccl, id := 1, newest_first := false, base := 2,
    ptc := 1, blackout := 0, ttl := 100, last_send_time := 0,
    messages := [cexMsgA], waiting := [] }

/-- Queue 1 of the scenario. -/
def cexQueueB : Queue :=
  { qtype := .queue_dccl, id := 2, newest_first := false, base := 1,
    ptc := 1, blackout := 0, ttl := 100, last_send_time := 0,
    messages := [cexMsgB], waiting := [] }

/-- The manager state of the scenario. -/
def cexState : QMState := ⟨1, [cexQueueA, cexQueueB], [], false⟩

/-- Queue 0 after handing out its ACK-required message. -/
def cexQueueA1 : Queue :=
  { cexQueueA with last_send_time := 10, waiting := [(0, cexMsgA)] }

/-- Queue 1 after handing out its non-ACK message under a sticky packet
ACK flag (not popped). -/
def cexQueueB1 : Queue := { cexQueueB with last_send_time := 10 }

/-- The manager state after the first fill iteration. -/
def cexState1 : QMState := ⟨1, [cexQueueA1, cexQueueB], [(0, 0)], true⟩

/-- The manager state after the second fill iteration. -/
def cexState2 : QMState := ⟨1, [cexQueueA1, cexQueueB1], [(0, 0), (0, 1)], true⟩

lemma cex_clear : clear_packet cexState = cexState := by
  norm_num [clear_packet, cexState]

lemma cex_contest0 :
    find_next_sender 0 (cexState.queues.map (queueEntry 10 20))
      = some (0, 4, 0) := by
  norm_num [cexState, cexQueueA, cexQueueB, cexMsgA, cexMsgB, queueEntry,
    Queue.priority_values, Queue.nextMsg, Queue.newest_msg_time,
    find_next_sender, fns_loop, contestBetter]

lemma cex_step1 : provide_step 10 0 cexState 0 = some (cexState1, cexMsgA) := by
  norm_num [provide_step, cexState, cexState1, cexQueueA, cexQueueA1,
    cexQueueB, cexMsgA, Queue.give_data, Queue.nextMsg]

lemma cex_contest1 :
    find_next_sender 1 (cexState1.queues.map (queueEntry 10 8))
      = some (1, 2, 0) := by
  norm_num [cexState1, cexQueueA1, cexQueueA, cexQueueB, cexMsgA, cexMsgB,
    queueEntry, Queue.priority_values, Queue.nextMsg, Queue.newest_msg_time,
    find_next_sender, fns_loop, contestBetter]
  intro h
  exact absurd h (by decide)

lemma cex_step2 :
    provide_step 10 0 cexState1 1 = some (cexState2, cexMsgB) := by
  norm_num [provide_step, cexState1, cexState2, cexQueueB, cexQueueB1,
    cexQueueA1, cexMsgB, Queue.give_data, Queue.nextMsg]

lemma cex_loop :
    provide_loop 10 0 21 cexState 20 0 [] = (cexState2, 1, [cexMsgA, cexMsgB]) := by
  rw [show (21 : Nat) = 20 + 1 from rfl, provide_loop, cex_step1]
  norm_num [show cexMsgA.data.length = 12 from rfl, cexState, cexQueueA,
    cexQueueB, DCCL_NUM_HEADER_BYTES, cex_contest1]
  rw [if_neg (show ¬QueueType.queue_dccl = QueueType.queue_ccl by decide)]
  rw [show (20 : Nat) = 19 + 1 from rfl, provide_loop, cex_step2]
  norm_num [show cexMsgB.data.length = 7 from rfl,
    DCCL_NUM_HEADER_BYTES]

/-- Counterexample to C5 as stated: in one `provide_outgoing_modem_data`
packet, the ACK-required message of queue 0 is handed out first and sets
the sticky packet ACK flag, so the subsequent message of queue 1 with
`ack_required = false` is NOT popped immediately: it stays in queue 1 and
a pending-ACK entry is recorded for it. -/
theorem provide_outgoing_sticky_ack :
    (provide_outgoing_modem_data 10 ⟨1, 2, 0, 20⟩ cexState).2.1
      = [cexMsgA, cexMsgB]
    ∧ cexMsgB.ack = false
    ∧ ((provide_outgoing_modem_data 10 ⟨1, 2, 0, 20⟩ cexState).1.queues.get? 1).map
        Queue.messages = some [cexMsgB]
    ∧ (provide_outgoing_modem_data 10 ⟨1, 2, 0, 20⟩ cexState).1.waiting_for_ack
      = [(0, 0), (0, 1)] := by
  have hrun : provide_outgoing_modem_data 10 ⟨1, 2, 0, 20⟩ cexState
      = (cexState2, [cexMsgA, cexMsgB],
        stitch_recursive []
          ([cexMsgA, cexMsgB].map (fun m => ⟨m.dest, m.data⟩))) := by
    rw [provide_outgoing_modem_data]
    norm_num [cex_clear, cex_contest0, cex_loop]
  rw [hrun]
  exact ⟨rfl, rfl, rfl, rfl⟩

lemma handle_ack_entries_waiting (frame : Nat) :
    ∀ (entries : List (Nat × Nat)) (qs : List Queue),
      (handle_ack_entries frame entries qs).2.1
        = entries.filter (fun e => decide (e.1 ≠ frame))
  | [], qs => by simp [handle_ack_entries]
  | (f, qi) :: rest, qs => by
    rw [handle_ack_entries]
    by_cases hf : f = frame
    · rw [if_pos hf]
      cases hq : qs.get? qi with
      | none =>
        simp only [hq, handle_ack_entries_waiting frame rest qs]
        simp [List.filter_cons, hf]
      | some q =>
        cases hp : q.pop_message_ack frame with
        | none =>
          simp only [hq, hp, handle_ack_entries_waiting frame rest qs]
          simp [List.filter_cons, hf]
        | some r =>
          simp only [hq, hp,
            handle_ack_entries_waiting frame rest (qs.set qi r.2)]
          simp [List.filter_cons, hf]
    · rw [if_neg hf]
      simp only [handle_ack_entries_waiting frame rest qs]
      simp [List.filter_cons, hf]

/-- C5 (amended): after a fill iteration of `provide_outgoing_modem_data`
hands out message `m` from queue `qi`, if the sticky packet ACK flag is
set afterwards (the message requires ACK, or an earlier message of the
same packet did), a `(frame, qi)` entry is recorded in the pending-ACK
map and the queue's message list is unchanged; only when the packet ACK
flag stays clear is the message popped immediately.  `handle_modem_ack`
addressed to a different modem id, or for a frame with no pending entry,
changes no state and fires no callback; for an ACK addressed to us it
erases every pending entry under that frame, and in the single-entry case
it pops exactly that message and fires the ACK callback once. -/
theorem queue_ack_obligation :
    (∀ (now : ℚ) (frame : Nat) (st : QMState) (qi : Nat) st1 m,
      provide_step now frame st qi = some (st1, m) →
      ((st.packet_ack || m.ack) = true →
        st1.waiting_for_ack = st.waiting_for_ack ++ [(frame, qi)]
        ∧ (st1.queues.get? qi).map Queue.messages
            = (st.queues.get? qi).map Queue.messages)
      ∧ ((st.packet_ack || m.ack) = false →
        st1.waiting_for_ack = st.waiting_for_ack
        ∧ (st1.queues.get? qi).map Queue.messages
            = (st.queues.get? qi).map (fun q => q.pop_message.messages)))
    ∧ (∀ (msg : AckIn) (st : QMState), msg.dest ≠ st.modem_id →
        handle_modem_ack msg st = (st, []))
    ∧ (∀ (msg : AckIn) (st : QMState),
        (∀ e ∈ st.waiting_for_ack, e.1 ≠ msg.frame) →
        handle_modem_ack msg st = (st, []))
    ∧ (∀ (msg : AckIn) (st : QMState), msg.dest = st.modem_id →
        (handle_modem_ack msg st).1.waiting_for_ack
          = st.waiting_for_ack.filter (fun e => decide (e.1 ≠ msg.frame)))
    ∧ (∀ (msg : AckIn) (st : QMState) (qi : Nat) q m q1,
        msg.dest = st.modem_id →
        st.waiting_for_ack = [(msg.frame, qi)] →
        st.queues.get? qi = some q →
        q.pop_message_ack msg.frame = some (m, q1) →
        handle_modem_ack msg st
          = ({ st with queues := st.queues.set qi q1, waiting_for_ack := [] }, [(qi, m)])) := by
  refine ⟨?_, ?_, ?_, ?_, ?_⟩
  · intro now frame st qi st1 m hstep
    rw [provide_step] at hstep
    split at hstep
    · cases hstep
    · rename_i q hq
      split at hstep
      · cases hstep
      · rename_i m0 q1 hg
        simp only [Option.some.injEq, Prod.mk.injEq] at hstep
        obtain ⟨hst1, hm⟩ := hstep
        subst hm
        have hq1 : q1.messages = q.messages ∧ q1.newest_first = q.newest_first := by
          rw [Queue.give_data] at hg
          cases hnx : q.nextMsg with
          | none => rw [hnx] at hg; cases hg
          | some mm =>
            rw [hnx] at hg
            simp only [Option.some.injEq, Prod.mk.injEq] at hg
            rw [← hg.2]
            exact ⟨rfl, rfl⟩
        constructor
        · intro hpa
          rw [← hst1]
          simp only [hpa, if_true]
          refine ⟨by simp, ?_⟩
          rw [List.get?_set_eq, hq]
          simp [hq1.1]
        · intro hpa
          rw [← hst1]
          simp only [hpa, Bool.false_eq_true, if_false]
          refine ⟨by simp, ?_⟩
          rw [List.get?_set_eq, hq]
          simp only [Option.map_some, Option.map]
          rw [Queue.pop_message, Queue.pop_message]
          simp [hq1.1, hq1.2]
  · intro msg st h
    rw [handle_modem_ack, if_pos h]
  · intro msg st h
    rw [handle_modem_ack]
    by_cases hd : msg.dest ≠ st.modem_id
    · rw [if_pos hd]
    · rw [if_neg hd, if_pos h]
  · intro msg st h
    rw [handle_modem_ack, if_neg (by simp [h])]
    by_cases hall : ∀ e ∈ st.waiting_for_ack, e.1 ≠ msg.frame
    · rw [if_pos hall]
      rw [List.filter_eq_self.mpr]
      intro e he
      simp [hall e he]
    · rw [if_neg hall]
      exact handle_ack_entries_waiting msg.frame st.waiting_for_ack st.queues
  · intro msg st qi q m q1 hdest hw hq hp
    rw [handle_modem_ack, if_neg (by simp [hdest])]
    rw [if_neg (by
      rw [hw]
      push_neg
      exact ⟨(msg.frame, qi), by simp⟩)]
    rw [hw, handle_ack_entries, if_pos rfl]
    simp only [hq, hp, handle_ack_entries]

/-- Closed witness for `queue_ack_obligation`, at the two-queue scenario:
the ACK-required hand-out records the pending entry and keeps the message;
an ACK for a foreign modem id and an ACK for an unknown frame are
no-ops. -/
theorem queue_ack_obligation_witness :
    (cexState.packet_ack || cexMsgA.ack) = true
    ∧ (cexState1.waiting_for_ack = cexState.waiting_for_ack ++ [(0, 0)]
      ∧ (cexState1.queues.get? 0).map Queue.messages
          = (cexState.queues.get? 0).map Queue.messages)
    ∧ handle_modem_ack ⟨5, 0⟩ cexState = (cexState, [])
    ∧ handle_modem_ack ⟨1, 3⟩ cexState2 = (cexState2, []) :=
  ⟨by decide,
   (queue_ack_obligation.1 10 0 cexState 0 cexState1 cexMsgA cex_step1).1
     (by decide),
   queue_ack_obligation.2.1 ⟨5, 0⟩ cexState (by decide),
   queue_ack_obligation.2.2.1 ⟨1, 3⟩ cexState2 (by decide)⟩

/-! ## Iridium shore driver
    (`IridiumShoreDriver::do_work` / `process_transmission` / `send` /
    `rudics_line`, src/acomms/modemdriver/iridium_shore_driver.cpp,
    lines 108-193 and 299-363; `OnCallBase`,
    src/acomms/modemdriver/iridium_driver_common.h, lines 45-86). -/

/-- `BITS_IN_BYTE` (acomms_constants.h, not in src/; the spec divides the
bit rate by 8). -/
def BITS_IN_BYTE : ℚ := 8

/-- Modelled from the spec: the serialized length of a rudics packet
(start-of-frame, length, payload, CRC16; `serialize_rudics_packet` is not
in src/).  Only its value as the byte count recorded for pacing matters
here. -/
def RUDICS_OVERHEAD : Nat := 6

/-- Modelled from the spec: byte length of the serialized packet carrying
`frame`. -/
def rudicsPacketLen (frame : List Nat) : Nat := frame.length + RUDICS_OVERHEAD

/-- `OnCallBase` (iridium_driver_common.h). -/
structure OnCallBase where
  last_tx_time : ℚ
  last_rx_time : ℚ
  bye_received : Bool
  bye_sent : Bool
  total_bytes_sent : Nat
  last_bytes_sent : Nat
  deriving DecidableEq, Repr

/-- `OnCallBase::last_rx_tx_time()`. -/
def OnCallBase.last_rx_tx_time (oc : OnCallBase) : ℚ :=
  max oc.last_tx_time oc.last_rx_time

/-- A freshly constructed `OnCallBase` (`last_tx_time` = now, everything
else zero/false). -/
def OnCallBase.fresh (now : ℚ) : OnCallBase := ⟨now, 0, false, false, 0, 0⟩

/-- The driver configuration fields the embedded code reads. -/
structure DriverCfg where
  modem_id : Nat
  target_bit_rate : ℚ
  handshake_hangup_seconds : ℚ
  hangup_seconds_after_empty : ℚ
  deriving DecidableEq, Repr

/-- Observable driver outputs. -/
inductive DriverAction
  | tx (dest : Nat) (frame : List Nat)
  | bye (dest : Nat)
  | disconnect (conn : Nat)
  | warnNoConn (id : Nat)
  | warnByeUnknown (conn : Nat)
  | packetFailure (conn : Nat)
  | ackReply (dest : Nat)
  | deliver (src : Nat)
  deriving DecidableEq, Repr

/-- `process_transmission` for the `rudics_mac_msg_` keepalive request:
`signal_data_request` fills the frames (`dataReq` is that outcome; `none`
means no frame was added) and the message is sent only when frame 0 exists
and is non-empty (`if (!(msg.frame_size() == 0 || msg.frame(0).empty()))
send(msg)`).  `send` on the RUDICS path stamps `last_tx_time` and the
serialized byte count on the `OnCallBase`. -/
def process_transmission_mac (now : ℚ) (dest : Nat) (oc : OnCallBase)
    (dataReq : Option (List Nat)) : OnCallBase × List DriverAction :=
  match dataReq with
  | none => (oc, [])
  | some f =>
    if f.isEmpty then (oc, [])
    else
      let len := rudicsPacketLen f
      ({ oc with last_tx_time := now, last_bytes_sent := len,
                 total_bytes_sent := oc.total_bytes_sent + len },
       [DriverAction.tx dest f])

/-- The per-remote body of `IridiumShoreDriver::do_work` (lines 141-188):
when on call, (1) if the pacing slot is due and bye has not been sent,
run a keepalive data request and send its frame if any; (2) if bye has
not been sent and the handshake hangup deadline passed, write `"bye\r"`
and set `bye_sent`; (3) if (bye_received and bye_sent) or the empty-line
hangup deadline passed, disconnect the connection (warning when the
bimap has no entry) and drop the `OnCallBase`. -/
def do_work_remote (cfg : DriverCfg) (now : ℚ) (id : Nat)
    (oc? : Option OnCallBase) (dataReq : Option (List Nat))
    (clients : List (Nat × Nat)) : Option OnCallBase × List DriverAction :=
  match oc? with
  | none => (none, [])
  | some oc0 =>
    let send_wait := (oc0.last_bytes_sent : ℚ) / (cfg.target_bit_rate / BITS_IN_BYTE)
    let p :=
      if oc0.last_tx_time + send_wait < now ∧ oc0.bye_sent = false then
        process_transmission_mac now id oc0 dataReq
      else (oc0, [])
    let oc1 := p.1
    let b :=
      if oc1.bye_sent = false ∧ oc1.last_tx_time + cfg.handshake_hangup_seconds < now then
        ({ oc1 with bye_sent := true }, [DriverAction.bye id])
      else (oc1, [])
    let oc2 := b.1
    if (oc2.bye_received = true ∧ oc2.bye_sent = true)
        ∨ oc2.last_rx_tx_time + cfg.hangup_seconds_after_empty < now then
      match clients.find? (fun e => e.1 == id) with
      | some e => (none, p.2 ++ (b.2 ++ [DriverAction.disconnect e.2]))
      | none => (none, p.2 ++ (b.2 ++ [DriverAction.warnNoConn id]))
    else (some oc2, p.2 ++ b.2)

/-- Whether the data request yielded a non-empty frame 0. -/
def dataNonempty (dataReq : Option (List Nat)) : Bool :=
  dataReq.elim false (fun f => !f.isEmpty)

/-- The `OnCallBase` after the pacing substep of `do_work`: updated by the
keepalive send exactly when the pacing slot is due, bye has not been sent,
and the data request yielded a non-empty frame. -/
def pacedOC (cfg : DriverCfg) (now : ℚ) (oc0 : OnCallBase)
    (dataReq : Option (List Nat)) : OnCallBase :=
  if oc0.last_tx_time
        + (oc0.last_bytes_sent : ℚ) / (cfg.target_bit_rate / BITS_IN_BYTE) < now
      ∧ oc0.bye_sent = false ∧ dataNonempty dataReq = true then
    { oc0 with last_tx_time := now,
               last_bytes_sent := rudicsPacketLen (dataReq.getD []),
               total_bytes_sent :=
                 oc0.total_bytes_sent + rudicsPacketLen (dataReq.getD []) }
  else oc0

lemma pace_pair_eq (cfg : DriverCfg) (now : ℚ) (id : Nat) (oc0 : OnCallBase)
    (dataReq : Option (List Nat)) :
    (if oc0.last_tx_time
          + (oc0.last_bytes_sent : ℚ) / (cfg.target_bit_rate / BITS_IN_BYTE) < now
        ∧ oc0.bye_sent = false then
      process_transmission_mac now id oc0 dataReq
    else ((oc0, []) : OnCallBase × List DriverAction)) =
      (pacedOC cfg now oc0 dataReq,
       if oc0.last_tx_time
            + (oc0.last_bytes_sent : ℚ) / (cfg.target_bit_rate / BITS_IN_BYTE) < now
          ∧ oc0.bye_sent = false ∧ dataNonempty dataReq = true then
         [DriverAction.tx id (dataReq.getD [])]
       else []) := by
  by_cases hA : oc0.last_tx_time
      + (oc0.last_bytes_sent : ℚ) / (cfg.target_bit_rate / BITS_IN_BYTE) < now
      ∧ oc0.bye_sent = false
  · rw [if_pos hA]
    cases dataReq with
    | none =>
      simp [process_transmission_mac, pacedOC, dataNonempty]
    | some f =>
      cases hf : f.isEmpty with
      | true =>
        simp [process_transmission_mac, pacedOC, dataNonempty, hf]
      | false =>
        simp [process_transmission_mac, pacedOC, dataNonempty, hf, hA]
  · rw [if_neg hA]
    rw [not_and_or] at hA
    have h1 : ¬(oc0.last_tx_time
        + (oc0.last_bytes_sent : ℚ) / (cfg.target_bit_rate / BITS_IN_BYTE) < now
        ∧ oc0.bye_sent = false ∧ dataNonempty dataReq = true) := by
      rintro ⟨ha, hb, -⟩
      rcases hA with h | h
      · exact h ha
      · exact h hb
    rw [pacedOC, if_neg h1, if_neg h1]

lemma pacedOC_bye_sent (cfg : DriverCfg) (now : ℚ) (oc0 : OnCallBase)
    (dataReq : Option (List Nat)) :
    (pacedOC cfg now oc0 dataReq).bye_sent = oc0.bye_sent := by
  rw [pacedOC]
  split <;> rfl

lemma pacedOC_bye_received (cfg : DriverCfg) (now : ℚ) (oc0 : OnCallBase)
    (dataReq : Option (List Nat)) :
    (pacedOC cfg now oc0 dataReq).bye_received = oc0.bye_received := by
  rw [pacedOC]
  split <;> rfl

lemma pacedOC_last_rx (cfg : DriverCfg) (now : ℚ) (oc0 : OnCallBase)
    (dataReq : Option (List Nat)) :
    (pacedOC cfg now oc0 dataReq).last_rx_time = oc0.last_rx_time := by
  rw [pacedOC]
  split <;> rfl

/-- The actions of the pacing substep. -/
def paceActions (cfg : DriverCfg) (now : ℚ) (id : Nat) (oc0 : OnCallBase)
    (dataReq : Option (List Nat)) : List DriverAction :=
  if oc0.last_tx_time
        + (oc0.last_bytes_sent : ℚ) / (cfg.target_bit_rate / BITS_IN_BYTE) < now
      ∧ oc0.bye_sent = false ∧ dataNonempty dataReq = true then
    [DriverAction.tx id (dataReq.getD [])]
  else []

/-- The guard of the bye substep of `do_work`. -/
def byeCond (cfg : DriverCfg) (now : ℚ) (oc1 : OnCallBase) : Prop :=
  oc1.bye_sent = false ∧ oc1.last_tx_time + cfg.handshake_hangup_seconds < now

instance (cfg : DriverCfg) (now : ℚ) (oc1 : OnCallBase) :
    Decidable (byeCond cfg now oc1) := by
  unfold byeCond
  infer_instance

/-- The OnCall record after the bye substep. -/
def afterBye (cfg : DriverCfg) (now : ℚ) (oc1 : OnCallBase) : OnCallBase :=
  if byeCond cfg now oc1 then { oc1 with bye_sent := true } else oc1

/-- The hangup guard of `do_work`. -/
def hangupCond (cfg : DriverCfg) (now : ℚ) (oc2 : OnCallBase) : Prop :=
  (oc2.bye_received = true ∧ oc2.bye_sent = true)
    ∨ oc2.last_rx_tx_time + cfg.hangup_seconds_after_empty < now

instance (cfg : DriverCfg) (now : ℚ) (oc2 : OnCallBase) :
    Decidable (hangupCond cfg now oc2) := by
  unfold hangupCond
  infer_instance

/-- Normal form of the per-remote `do_work` body: pacing, bye, hangup in
sequence, each characterised by its named guard. -/
lemma do_work_remote_eq (cfg : DriverCfg) (now : ℚ) (id : Nat)
    (oc0 : OnCallBase) (dataReq : Option (List Nat))
    (clients : List (Nat × Nat)) :
    do_work_remote cfg now id (some oc0) dataReq clients =
      (if hangupCond cfg now (afterBye cfg now (pacedOC cfg now oc0 dataReq)) then
        (none,
          (paceActions cfg now id oc0 dataReq
            ++ (if byeCond cfg now (pacedOC cfg now oc0 dataReq) then
                  [DriverAction.bye id] else []))
          ++ (match clients.find? (fun e => e.1 == id) with
              | some e => [DriverAction.disconnect e.2]
              | none => [DriverAction.warnNoConn id]))
      else
        (some (afterBye cfg now (pacedOC cfg now oc0 dataReq)),
          paceActions cfg now id oc0 dataReq
            ++ (if byeCond cfg now (pacedOC cfg now oc0 dataReq) then
                  [DriverAction.bye id] else []))) := by
  rw [do_work_remote, pace_pair_eq cfg now id oc0 dataReq, ← paceActions]
  by_cases hB : byeCond cfg now (pacedOC cfg now oc0 dataReq)
  · rw [afterBye, if_pos hB]
    have hB' := hB
    rw [byeCond] at hB'
    simp only [if_pos hB, if_pos hB']
    by_cases hC : hangupCond cfg now
        ({ pacedOC cfg now oc0 dataReq with bye_sent := true } : OnCallBase)
    · have hC' := hC
      rw [hangupCond] at hC'
      simp only [if_pos hC, if_pos hC']
      cases hfind : clients.find? (fun e => e.1 == id) with
      | some e =>
        simp
        intro hbr
        rcases hC' with ⟨h1, h2⟩ | h2
        · rw [show (pacedOC cfg now oc0 dataReq).bye_received = true from h1] at hbr
          exact absurd hbr (by simp)
        · exact h2
      | none =>
        simp
        intro hbr
        rcases hC' with ⟨h1, h2⟩ | h2
        · rw [show (pacedOC cfg now oc0 dataReq).bye_received = true from h1] at hbr
          exact absurd hbr (by simp)
        · exact h2
    · have hC' := hC
      rw [hangupCond] at hC'
      simp only [if_neg hC, if_neg hC']
      split
      · rename_i hcond
        exact absurd (hcond.elim (fun h => Or.inl ⟨h.1, rfl⟩) Or.inr) hC
      · rfl
  · rw [afterBye, if_neg hB]
    have hB' := hB
    rw [byeCond] at hB'
    simp only [if_neg hB, if_neg hB']
    by_cases hC : hangupCond cfg now (pacedOC cfg now oc0 dataReq)
    · have hC' := hC
      rw [hangupCond] at hC'
      simp only [if_pos hC, if_pos hC']
      cases hfind : clients.find? (fun e => e.1 == id) with
      | some e => simp
      | none => simp
    · have hC' := hC
      rw [hangupCond] at hC'
      simp only [if_neg hC, if_neg hC']

/-- C7: a remote with no OnCall record is never sent bye or hung up; for a
remote on call, `do_work` writes `"bye\r"` (and the surviving record has
`bye_sent` set) exactly when `bye_sent` is false and `now` exceeds the
current `last_tx_time` (as updated by this tick's keepalive send) plus
`handshake_hangup_seconds`; and it hangs up -- dropping the OnCall record
and disconnecting the bimap connection (warning when absent) -- exactly
when `(bye_sent ∧ bye_received)` holds after the bye substep or `now`
exceeds `max(last_rx, last_tx) + hangup_seconds_after_empty`. -/
theorem driver_bye_and_hangup (cfg : DriverCfg) (now : ℚ) (id : Nat)
    (oc0 : OnCallBase) (dataReq : Option (List Nat))
    (clients : List (Nat × Nat)) :
    do_work_remote cfg now id none dataReq clients = (none, [])
    ∧ (DriverAction.bye id
        ∈ (do_work_remote cfg now id (some oc0) dataReq clients).2 ↔
        (oc0.bye_sent = false ∧
          (pacedOC cfg now oc0 dataReq).last_tx_time
            + cfg.handshake_hangup_seconds < now))
    ∧ (∀ oc2, (do_work_remote cfg now id (some oc0) dataReq clients).1
          = some oc2 →
        oc2.bye_sent = (oc0.bye_sent
          || decide ((pacedOC cfg now oc0 dataReq).last_tx_time
              + cfg.handshake_hangup_seconds < now)))
    ∧ ((do_work_remote cfg now id (some oc0) dataReq clients).1 = none ↔
        ((oc0.bye_received = true ∧
            (oc0.bye_sent
              || decide ((pacedOC cfg now oc0 dataReq).last_tx_time
                  + cfg.handshake_hangup_seconds < now)) = true)
          ∨ max (pacedOC cfg now oc0 dataReq).last_tx_time oc0.last_rx_time
              + cfg.hangup_seconds_after_empty < now))
    ∧ ((do_work_remote cfg now id (some oc0) dataReq clients).1 = none →
        (∃ c, DriverAction.disconnect c
            ∈ (do_work_remote cfg now id (some oc0) dataReq clients).2)
        ∨ DriverAction.warnNoConn id
            ∈ (do_work_remote cfg now id (some oc0) dataReq clients).2) := by
  set oc1 := pacedOC cfg now oc0 dataReq with hoc1
  have hbyeCond : byeCond cfg now oc1 ↔
      (oc0.bye_sent = false ∧
        oc1.last_tx_time + cfg.handshake_hangup_seconds < now) := by
    rw [byeCond, hoc1, pacedOC_bye_sent]
  have hsent : (afterBye cfg now oc1).bye_sent
      = (oc0.bye_sent
        || decide (oc1.last_tx_time + cfg.handshake_hangup_seconds < now)) := by
    rw [afterBye]
    by_cases hB : byeCond cfg now oc1
    · rw [if_pos hB]
      obtain ⟨h1, h2⟩ := hbyeCond.mp hB
      rw [h1, decide_eq_true h2]
      rfl
    · rw [if_neg hB]
      rw [hbyeCond, not_and_or] at hB
      rcases hB with hb | hb
      · have h1 : oc0.bye_sent = true := by
          cases h : oc0.bye_sent
          · exact absurd h hb
          · rfl
        rw [hoc1, pacedOC_bye_sent, h1]
        simp
      · rw [decide_eq_false hb, hoc1, pacedOC_bye_sent]
        simp
  have hrx : (afterBye cfg now oc1).last_rx_time = oc0.last_rx_time := by
    rw [afterBye]
    by_cases hB : byeCond cfg now oc1
    · rw [if_pos hB]
      show oc1.last_rx_time = _
      rw [hoc1, pacedOC_last_rx]
    · rw [if_neg hB, hoc1, pacedOC_last_rx]
  have htx : (afterBye cfg now oc1).last_tx_time = oc1.last_tx_time := by
    rw [afterBye]
    by_cases hB : byeCond cfg now oc1
    · rw [if_pos hB]
    · rw [if_neg hB]
  have hbrcv : (afterBye cfg now oc1).bye_received = oc0.bye_received := by
    rw [afterBye]
    by_cases hB : byeCond cfg now oc1
    · rw [if_pos hB]
      show oc1.bye_received = _
      rw [hoc1, pacedOC_bye_received]
    · rw [if_neg hB, hoc1, pacedOC_bye_received]
  have hhang : hangupCond cfg now (afterBye cfg now oc1) ↔
      ((oc0.bye_received = true ∧
          (oc0.bye_sent
            || decide (oc1.last_tx_time + cfg.handshake_hangup_seconds < now)) = true)
        ∨ max oc1.last_tx_time oc0.last_rx_time
            + cfg.hangup_seconds_after_empty < now) := by
    rw [hangupCond, OnCallBase.last_rx_tx_time, hsent, hrx, htx, hbrcv]
  have hpace_no_bye : DriverAction.bye id ∉ paceActions cfg now id oc0 dataReq := by
    rw [paceActions]
    split
    · simp
    · simp
  refine ⟨rfl, ?_, ?_, ?_, ?_⟩
  · rw [do_work_remote_eq, ← hoc1]
    by_cases hC : hangupCond cfg now (afterBye cfg now oc1)
    · rw [if_pos hC]
      rw [← hbyeCond]
      constructor
      · intro hmem
        by_cases hB : byeCond cfg now oc1
        · exact hB
        · exfalso
          rw [if_neg hB] at hmem
          simp only [List.append_nil, List.mem_append] at hmem
          rcases hmem with h | h
          · exact hpace_no_bye h
          · cases hfind : clients.find? (fun e => e.1 == id) <;>
              rw [hfind] at h <;> simp at h
      · intro hB
        rw [if_pos hB]
        simp
    · rw [if_neg hC]
      rw [← hbyeCond]
      constructor
      · intro hmem
        by_cases hB : byeCond cfg now oc1
        · exact hB
        · exfalso
          rw [if_neg hB] at hmem
          simp only [List.append_nil, List.mem_append] at hmem
          exact hpace_no_bye hmem
      · intro hB
        rw [if_pos hB]
        simp
  · intro oc2 h
    rw [do_work_remote_eq, ← hoc1] at h
    by_cases hC : hangupCond cfg now (afterBye cfg now oc1)
    · rw [if_pos hC] at h
      cases h
    · rw [if_neg hC] at h
      simp only [Option.some.injEq] at h
      rw [← h]
      exact hsent
  · rw [do_work_remote_eq, ← hoc1, ← hhang]
    by_cases hC : hangupCond cfg now (afterBye cfg now oc1)
    · rw [if_pos hC]
      simp [hC]
    · rw [if_neg hC]
      simp [hC]
  · intro h
    rw [do_work_remote_eq, ← hoc1] at h ⊢
    by_cases hC : hangupCond cfg now (afterBye cfg now oc1)
    · rw [if_pos hC] at h ⊢
      cases hfind : clients.find? (fun e => e.1 == id) with
      | some e =>
        refine Or.inl ⟨e.2, ?_⟩
        simp [hfind]
      | none =>
        refine Or.inr ?_
        simp [hfind]
    · rw [if_neg hC] at h
      cases h

/-- C7 witness: a concrete on-call remote past both deadlines is sent the
bye and its OnCall record is dropped. -/
theorem driver_bye_and_hangup_witness :
    DriverAction.bye 5
      ∈ (do_work_remote ⟨5, 8, 10, 20⟩ 100 5
          (some ⟨0, 0, false, false, 0, 0⟩) none []).2
    ∧ (do_work_remote ⟨5, 8, 10, 20⟩ 100 5
        (some ⟨0, 0, false, false, 0, 0⟩) none []).1 = none := by
  have hpaced : pacedOC ⟨5, 8, 10, 20⟩ 100 ⟨0, 0, false, false, 0, 0⟩ none
      = ⟨0, 0, false, false, 0, 0⟩ := by
    rw [pacedOC]
    simp [dataNonempty]
  refine ⟨?_, ?_⟩
  · exact (driver_bye_and_hangup ⟨5, 8, 10, 20⟩ 100 5
        ⟨0, 0, false, false, 0, 0⟩ none []).2.1.mpr
      ⟨rfl, by rw [hpaced]; norm_num⟩
  · exact (driver_bye_and_hangup ⟨5, 8, 10, 20⟩ 100 5
        ⟨0, 0, false, false, 0, 0⟩ none []).2.2.2.1.mpr
      (Or.inr (by rw [hpaced]; simp [OnCallBase.last_rx_tx_time]; norm_num))

/-- `tx` membership in the pacing substep's actions: a transmission occurs
exactly when the pacing slot is due, bye has not been sent, and the data
request yielded a non-empty frame (and then the frame is that frame and the
destination the remote's id). -/
lemma tx_mem_paceActions (cfg : DriverCfg) (now : ℚ) (id : Nat)
    (oc0 : OnCallBase) (dataReq : Option (List Nat)) (d : Nat) (f : List Nat) :
    DriverAction.tx d f ∈ paceActions cfg now id oc0 dataReq ↔
      (oc0.last_tx_time
          + (oc0.last_bytes_sent : ℚ) / (cfg.target_bit_rate / BITS_IN_BYTE) < now
        ∧ oc0.bye_sent = false ∧ dataReq = some f ∧ f ≠ [] ∧ d = id) := by
  rw [paceActions]
  split
  · rename_i hcond
    obtain ⟨h1, h2, h3⟩ := hcond
    cases dataReq with
    | none =>
      rw [dataNonempty] at h3
      cases h3
    | some g =>
      rw [dataNonempty] at h3
      simp only [Option.elim, Bool.not_eq_true'] at h3
      have hg : g ≠ [] := by
        intro he
        rw [he] at h3
        cases h3
      simp only [List.mem_singleton, DriverAction.tx.injEq, Option.getD_some,
        Option.some.injEq]
      constructor
      · rintro ⟨hd, hf⟩
        exact ⟨h1, h2, hf.symm, hf ▸ hg, hd⟩
      · rintro ⟨-, -, hf, -, hd⟩
        exact ⟨hd, hf.symm⟩
  · rename_i hcond
    simp only [List.not_mem_nil, false_iff]
    rintro ⟨h1, h2, h3, h4, h5⟩
    apply hcond
    refine ⟨h1, h2, ?_⟩
    rw [h3, dataNonempty]
    simp [h4]

/-- `tx` actions of the whole `do_work` body come only from the pacing
substep (the bye, disconnect and warning actions are never `tx`). -/
lemma tx_mem_do_work (cfg : DriverCfg) (now : ℚ) (id : Nat)
    (oc0 : OnCallBase) (dataReq : Option (List Nat))
    (clients : List (Nat × Nat)) (d : Nat) (f : List Nat) :
    DriverAction.tx d f ∈ (do_work_remote cfg now id (some oc0) dataReq clients).2 ↔
      DriverAction.tx d f ∈ paceActions cfg now id oc0 dataReq := by
  rw [do_work_remote_eq]
  by_cases hB : byeCond cfg now (pacedOC cfg now oc0 dataReq)
  · simp only [if_pos hB]
    by_cases hC : hangupCond cfg now (afterBye cfg now (pacedOC cfg now oc0 dataReq))
    · rw [if_pos hC]
      cases hfind : clients.find? (fun e => e.1 == id) with
      | some e => simp
      | none => simp
    · rw [if_neg hC]
      simp
  · simp only [if_neg hB]
    by_cases hC : hangupCond cfg now (afterBye cfg now (pacedOC cfg now oc0 dataReq))
    · rw [if_pos hC]
      cases hfind : clients.find? (fun e => e.1 == id) with
      | some e => simp
      | none => simp
    · rw [if_neg hC]
      simp

/-- C8 counterexample: pacing slot due on a fresh on-call remote, data
request yields an empty frame -- `do_work` emits NO transmission at all
(the claimed zero-body keepalive is never sent: `process_transmission`
skips sending when frame 0 is empty), and the on-call state is unchanged. -/
theorem driver_no_keepalive_on_empty :
    do_work_remote ⟨1, 8, 1000, 2000⟩ 100 1
        (some ⟨0, 0, false, false, 0, 0⟩) (some []) []
      = (some ⟨0, 0, false, false, 0, 0⟩, [])
    ∧ (OnCallBase.last_tx_time ⟨0, 0, false, false, 0, 0⟩
        + ((OnCallBase.last_bytes_sent ⟨0, 0, false, false, 0, 0⟩ : ℚ))
            / ((8 : ℚ) / BITS_IN_BYTE) < 100) := by
  constructor
  · rw [do_work_remote, process_transmission_mac]
    norm_num [OnCallBase.last_rx_tx_time, BITS_IN_BYTE]
  · norm_num [BITS_IN_BYTE]

/-- C8 (amended): while a remote is on call, `do_work` emits a transmission
to it exactly when the pacing slot is due (`last_tx + last_bytes_sent /
(target_bit_rate/8) < now`), bye has not been sent, and the data request
yielded a non-empty frame; the frame sent is that frame and the destination
is the remote.  In particular nothing is ever transmitted before the pacing
slot is due, and no keepalive is emitted when the request yields no frame
or an empty one. -/
theorem driver_pacing (cfg : DriverCfg) (now : ℚ) (id : Nat)
    (oc0 : OnCallBase) (dataReq : Option (List Nat))
    (clients : List (Nat × Nat)) (d : Nat) (f : List Nat) :
    DriverAction.tx d f ∈ (do_work_remote cfg now id (some oc0) dataReq clients).2 ↔
      (oc0.last_tx_time
          + (oc0.last_bytes_sent : ℚ) / (cfg.target_bit_rate / BITS_IN_BYTE) < now
        ∧ oc0.bye_sent = false ∧ dataReq = some f ∧ f ≠ [] ∧ d = id) := by
  rw [tx_mem_do_work, tx_mem_paceActions]

/-- C8 witness: a due, non-empty request is transmitted. -/
theorem driver_pacing_witness :
    DriverAction.tx 1 [7]
      ∈ (do_work_remote ⟨1, 8, 1000, 2000⟩ 100 1
          (some ⟨0, 0, false, false, 0, 0⟩) (some [7]) []).2 := by
  refine (driver_pacing ⟨1, 8, 1000, 2000⟩ 100 1
      ⟨0, 0, false, false, 0, 0⟩ (some [7]) [] 1 [7]).mpr
    ⟨by norm_num [BITS_IN_BYTE], rfl, rfl, by simp, rfl⟩

/-- The bytes of the RUDICS line `"goby\r"`. -/
def gobyLine : List Nat := [103, 111, 98, 121, 13]

/-- The bytes of the RUDICS line `"bye\r"`. -/
def byeLine : List Nat := [98, 121, 101, 13]

/-- A C++ string literal given as a byte list: constructing `std::string`
from a `const char*` stops at the first NUL, so the literal
`"\0goby\r"` in the source denotes the empty string. -/
def cppLiteral (l : List Nat) : List Nat := l.takeWhile (fun b => decide (b ≠ 0))

/-- The fields of a parsed iridium modem message that `rudics_line` and
`receive` read. -/
structure ParsedMsg where
  src : Nat
  dest : Nat
  isData : Bool
  ack_requested : Bool
  deriving DecidableEq, Repr

/-- The shore driver state `rudics_line` touches: the `clients_` bimap
(modem id, connection id) and the per-remote `on_call` records. -/
structure ShoreState where
  clients : List (Nat × Nat)
  remote : Nat → Option OnCallBase

/-- `remote_[id].on_call = oc` (std::map assignment). -/
def setRemote (r : Nat → Option OnCallBase) (id : Nat)
    (oc : Option OnCallBase) : Nat → Option OnCallBase :=
  fun j => if j = id then oc else r j

lemma setRemote_same (r : Nat → Option OnCallBase) (id : Nat)
    (oc : Option OnCallBase) : setRemote r id oc id = oc := by
  simp [setRemote]

/-- `IridiumShoreDriver::rudics_line` (lines 299-363), with the inlined
effect of `receive` (lines 195-214) and the RUDICS branch of `send`
(lines 216-235): the `"goby\r"` test (whose null-tolerant second literal
`"\0goby\r"` collapses to the empty string) only logs; `"bye\r"` sets
`bye_received` on the remote found through the bimap right map (warning
when absent; the C++ dereferences `on_call` unconditionally, modelled as a
no-op when it is absent); any other line is parsed (`parse` is the outcome
of `parse_rudics_packet`/`parse_iridium_modem_message`; `none` means a
`RudicsPacketException`, answered by `add_packet_failure`); a parsed
message from a source not in the bimap inserts (src, connection) and a
fresh `OnCallBase`, then `last_rx_time` is stamped and the message is
received -- replying with an ACK (`ackLen` serialized bytes, stamping
`last_tx_time`/byte counts via `send`) when it is a DATA message
requesting an ACK and addressed to us. -/
def rudics_line (cfg : DriverCfg) (now : ℚ) (ackLen : Nat) (data : List Nat)
    (conn : Nat) (parse : Option ParsedMsg) (st : ShoreState) :
    ShoreState × List DriverAction :=
  if data = gobyLine ∨ data = cppLiteral (0 :: gobyLine) then
    (st, [])
  else if data = byeLine then
    match st.clients.find? (fun e => e.2 == conn) with
    | some e =>
      (⟨st.clients, setRemote st.remote e.1 ((st.remote e.1).map (fun oc => { oc with bye_received := true }))⟩, [])
    | none => (st, [DriverAction.warnByeUnknown conn])
  else
    match parse with
    | none => (st, [DriverAction.packetFailure conn])
    | some m =>
      let st1 : ShoreState :=
        if (st.clients.find? (fun e => e.1 == m.src)).isNone then
          ⟨st.clients ++ [(m.src, conn)], setRemote st.remote m.src (some (OnCallBase.fresh now))⟩
        else st
      let st2 : ShoreState :=
        ⟨st1.clients, setRemote st1.remote m.src ((st1.remote m.src).map (fun oc => { oc with last_rx_time := now }))⟩
      if m.isData = true ∧ m.ack_requested = true ∧ m.dest = cfg.modem_id then
        match st2.remote m.src with
        | some oc =>
          (⟨st2.clients, setRemote st2.remote m.src (some { oc with last_tx_time := now, last_bytes_sent := ackLen, total_bytes_sent := oc.total_bytes_sent + ackLen })⟩,
           [DriverAction.ackReply m.src, DriverAction.deliver m.src])
        | none => (st2, [DriverAction.ackReply m.src, DriverAction.deliver m.src])
      else (st2, [DriverAction.deliver m.src])

/-- C9 counterexample: receiving `"goby\r"` does NOT start the call -- the
branch only logs, so the clients bimap stays empty and no OnCall record is
set; moreover a leading null byte is not actually tolerated (the C++
literal `"\0goby\r"` equals the empty string), so `"\0goby\r"` falls
through to the packet parser and is answered with a packet failure. -/
theorem rudics_goby_starts_no_call :
    rudics_line ⟨1, 8, 10, 20⟩ 100 0 gobyLine 7 none ⟨[], fun _ => none⟩
      = (⟨[], fun _ => none⟩, [])
    ∧ (rudics_line ⟨1, 8, 10, 20⟩ 100 0 gobyLine 7 none
        ⟨[], fun _ => none⟩).1.clients = []
    ∧ (rudics_line ⟨1, 8, 10, 20⟩ 100 0 gobyLine 7 none
        ⟨[], fun _ => none⟩).1.remote 2 = none
    ∧ (rudics_line ⟨1, 8, 10, 20⟩ 100 0 (0 :: gobyLine) 7 none
        ⟨[], fun _ => none⟩).2 = [DriverAction.packetFailure 7] := by
  refine ⟨?_, ?_, ?_, ?_⟩ <;>
    simp [rudics_line, gobyLine, byeLine, cppLiteral]

/-- C9 (amended): the `"goby\r"` line -- and the empty line, which is what
the null-tolerant comparison actually matches -- is a pure log line
changing no state; the call actually starts on the first successfully
parsed line from a source not yet in the clients bimap, which inserts
(src, connection), creates a fresh OnCall record (bye flags clear), stamps
its `last_rx_time` with now, and delivers the message; and `"bye\r"` on a
connection present in the bimap sets `bye_received` on that remote's
OnCall record, leaving the bimap unchanged. -/
theorem rudics_line_spec (cfg : DriverCfg) (now : ℚ) (ackLen : Nat)
    (conn : Nat) (parse : Option ParsedMsg) (st : ShoreState)
    (data : List Nat) (m : ParsedMsg) (ent : Nat × Nat) (oc : OnCallBase) :
    rudics_line cfg now ackLen gobyLine conn parse st = (st, [])
    ∧ rudics_line cfg now ackLen [] conn parse st = (st, [])
    ∧ (¬(data = gobyLine ∨ data = cppLiteral (0 :: gobyLine)) →
        data ≠ byeLine →
        (st.clients.find? (fun e => e.1 == m.src)).isNone = true →
        (rudics_line cfg now ackLen data conn (some m) st).1.clients
            = st.clients ++ [(m.src, conn)]
        ∧ (∃ oc2,
            (rudics_line cfg now ackLen data conn (some m) st).1.remote m.src
              = some oc2
            ∧ oc2.last_rx_time = now ∧ oc2.bye_received = false
            ∧ oc2.bye_sent = false)
        ∧ DriverAction.deliver m.src
            ∈ (rudics_line cfg now ackLen data conn (some m) st).2)
    ∧ (st.clients.find? (fun e => e.2 == conn) = some ent →
        st.remote ent.1 = some oc →
        (rudics_line cfg now ackLen byeLine conn parse st).1.remote ent.1
            = some { oc with bye_received := true }
        ∧ (rudics_line cfg now ackLen byeLine conn parse st).1.clients
            = st.clients
        ∧ (rudics_line cfg now ackLen byeLine conn parse st).2 = []) := by
  refine ⟨?_, ?_, ?_, ?_⟩
  · rw [rudics_line.eq_def, if_pos (Or.inl rfl)]
  · rw [rudics_line.eq_def, if_pos (Or.inr (by decide))]
  · intro hg hb hfind
    rw [rudics_line.eq_def, if_neg hg, if_neg hb]
    simp only [if_pos hfind]
    by_cases hack : m.isData = true ∧ m.ack_requested = true ∧ m.dest = cfg.modem_id
    · simp [if_pos hack, setRemote_same, OnCallBase.fresh, setRemote]
    · simp [if_neg hack, setRemote_same, OnCallBase.fresh, setRemote]
  · intro hfind hoc
    have hg : ¬(byeLine = gobyLine ∨ byeLine = cppLiteral (0 :: gobyLine)) := by
      decide
    rw [rudics_line.eq_def, if_neg hg, if_pos rfl, hfind]
    simp [setRemote_same, hoc]

/-- C9 witness: on a concrete on-call connection, `"bye\r"` flips
`bye_received` on the remote's OnCall record. -/
theorem rudics_line_spec_witness :
    (rudics_line ⟨1, 8, 10, 20⟩ 100 0 byeLine 7 none
        ⟨[(2, 7)], fun _ => some (OnCallBase.fresh 50)⟩).1.remote 2
      = some { OnCallBase.fresh 50 with bye_received := true } := by
  have h := (rudics_line_spec ⟨1, 8, 10, 20⟩ 100 0 7 none
      ⟨[(2, 7)], fun _ => some (OnCallBase.fresh 50)⟩ [1, 2, 3]
      ⟨2, 1, true, false⟩ (2, 7) (OnCallBase.fresh 50)).2.2.2
  exact (h rfl rfl).1

end Goby